import Mathlib

/-!
Verification of the trusttunel_bot credential/config management core.

The Python sources are shallowly embedded here:
* strings are Lean `String`s and most textual algorithms are stated over
  `List Char` via `String.toList`/`String.mk`, with small models of the
  Python primitives they use (`str.strip`, `str.rstrip`, `str.splitlines`,
  `str.startswith`);
* the TOML documents the code reads are modelled by a small value type
  (`TAtom`/`TVal`/`TEntry`) covering exactly the shapes the code consumes
  (scalars, arrays of scalars, one level of sections);
* the credential file is modelled by an executable parser
  (`loadCredentials`) for the fragment of TOML the file format uses
  (array-of-tables headers, `key = "basic string"` lines, blank lines and
  comment lines), and the exact serializer of the source
  (`saveContent`);
* effects (HTTP POST, `systemctl`, the external wizard) are oracles passed
  as explicit arguments.
-/

/-! ## Python string primitives -/

/-- Whitespace as Python `str.strip`/`str.rstrip` treat it (ASCII part:
space, tab, newline, carriage return, vertical tab, form feed). -/
def pyIsSpace (c : Char) : Bool :=
  c = ' ' || c = '\t' || c = '\n' || c = '\r' || c.val = 11 || c.val = 12

/-- Python `str.rstrip()` on a character list. -/
def rstripChars (cs : List Char) : List Char :=
  (cs.reverse.dropWhile pyIsSpace).reverse

/-- Python `str.strip()` on a character list. -/
def pyStripChars (cs : List Char) : List Char :=
  rstripChars (cs.dropWhile pyIsSpace)

/-- Python `str.strip()`. -/
def pyStrip (s : String) : String :=
  String.mk (pyStripChars s.toList)

/-- Python `s.startswith(pre)`. -/
def pyStartsWith (s pre : String) : Bool :=
  pre.toList.isPrefixOf s.toList

/-- Python `str.splitlines()` restricted to the line break actually written
by this code base, the newline character: `"a\nb\n"` gives `[a, b]`,
`""` gives `[]`. -/
def splitLinesChars : List Char → List (List Char)
  | [] => []
  | '\n' :: rest => [] :: splitLinesChars rest
  | c :: rest =>
    match splitLinesChars rest with
    | [] => [[c]]
    | l :: ls => (c :: l) :: ls

/-- Python `content.splitlines()`. -/
def pySplitlines (s : String) : List String :=
  (splitLinesChars s.toList).map String.mk

/-- Python `"\n".join(lines)` on character lists. -/
def joinLinesChars : List (List Char) → List Char
  | [] => []
  | [l] => l
  | l :: ls => l ++ '\n' :: joinLinesChars ls

/-- The `_escape` helper of credentials.py, rules.py and cli_config.py:
`value.replace("\\", "\\\\").replace("\"", "\\\"")`, written character by
character (the two sequential replacements amount to escaping each
backslash and each double quote with a backslash). -/
def escapeChars : List Char → List Char
  | [] => []
  | c :: rest =>
    (if c = '\\' || c = '"' then ['\\', c] else [c]) ++ escapeChars rest

/-- String form of `_escape`. -/
def escapeStr (s : String) : String :=
  String.mk (escapeChars s.toList)

/-- First-match association lookup, the behaviour of `dict.get` for the
(unique-key) dictionaries tomllib produces. -/
def alookup (t : List (String × String)) (k : String) : Option String :=
  match t.find? (fun p => p.1 = k) with
  | some p => some p.2
  | none => none

/-! ## Credential store (credentials.py) -/

/-- A record of the credential file: `ClientCredential` of credentials.py. -/
structure ClientCredential where
  username : String
  password : String
deriving DecidableEq, Repr

/-- Decode the body of a TOML basic string: the characters after the
opening quote.  A backslash escapes the next character (the serializer only
ever writes `\\` and `\"`), the first unescaped quote closes the string and
must end the value. -/
def unquoteChars : List Char → Option (List Char)
  | [] => none
  | ['"'] => some []
  | '"' :: _ :: _ => none
  | '\\' :: c :: rest => (unquoteChars rest).map (fun l => c :: l)
  | c :: rest => (unquoteChars rest).map (fun l => c :: l)

/-- Parse a (stripped) TOML value of the credential-file fragment: a quoted
basic string. -/
def parseValue (cs : List Char) : Option String :=
  match cs with
  | '"' :: rest => (unquoteChars rest).map String.mk
  | _ => none

/-- Split a stripped line at its first `=` into key and raw value text,
both stripped, as tomllib does for `key = value` lines. -/
def parseKV (cs : List Char) : Option (String × List Char) :=
  match cs.dropWhile (fun c => c ≠ '=') with
  | _ :: rest =>
    some (String.mk (pyStripChars (cs.takeWhile (fun c => c ≠ '='))),
          pyStripChars rest)
  | [] => none

/-- Classification of one line of the credential file. -/
inductive PLine where
  | blank
  | header
  | kv (k v : String)
  | bad
deriving DecidableEq, Repr

/-- Classify one line: blank and `#` comment lines are skipped, `[[client]]`
opens a new record, `key = "value"` lines carry data, anything else is a
parse error. -/
def classifyLine (l : String) : PLine :=
  let st := pyStripChars l.toList
  if st = [] then .blank
  else if st.head? = some '#' then .blank
  else if st = "[[client]]".toList then .header
  else
    match parseKV st with
    | some (k, v) =>
      match parseValue v with
      | some s => .kv k s
      | none => .bad
    | none => .bad

/-- Add a key/value pair to the most recently opened table; fails before
any `[[client]]` header and on duplicate keys, as tomllib does. -/
def addKV (tables : List (List (String × String))) (k v : String) :
    Option (List (List (String × String))) :=
  match tables.getLast? with
  | none => none
  | some t =>
    if (alookup t k).isSome then none
    else some (tables.dropLast ++ [t ++ [(k, v)]])

/-- Fold the classified lines into the list of `[[client]]` tables. -/
def accumulate : List PLine → List (List (String × String)) →
    Option (List (List (String × String)))
  | [], acc => some acc
  | .blank :: rest, acc => accumulate rest acc
  | .header :: rest, acc => accumulate rest (acc ++ [[]])
  | .kv k v :: rest, acc =>
    match addKV acc k v with
    | some acc2 => accumulate rest acc2
    | none => none
  | .bad :: _, _ => none

/-- The per-record check of `load_credentials`: `client.get("username")`,
`client.get("password")`, and `if not username or not password: raise`. -/
def clientOfTable (t : List (String × String)) : Except String ClientCredential :=
  match alookup t "username", alookup t "password" with
  | some u, some p =>
    if u = "" || p = "" then .error "Each client must have username and password"
    else .ok { username := u, password := p }
  | _, _ => .error "Each client must have username and password"

/-- `load_credentials` of credentials.py, on the file content (the path
indirection and the absent-file case are outside this model): parse the
TOML fragment into `[[client]]` tables, then extract the records. -/
def loadCredentials (content : String) : Except String (List ClientCredential) :=
  match accumulate ((pySplitlines content).map classifyLine) [] with
  | some tables => tables.mapM clientOfTable
  | none => .error "Invalid credentials file"

/-- The four lines `save_credentials` appends for one record:
`[[client]]`, the username line, the password line, and a blank line. -/
def clientBlockLines (c : ClientCredential) : List String :=
  ["[[client]]",
   String.mk ("username = \"".toList ++ escapeChars c.username.toList ++ ['"']),
   String.mk ("password = \"".toList ++ escapeChars c.password.toList ++ ['"']),
   ""]

/-- `save_credentials` of credentials.py, as the content it writes:
`"\n".join(lines).rstrip() + "\n" if lines else ""`. -/
def saveContent (cs : List ClientCredential) : String :=
  let lines := cs.flatMap clientBlockLines
  if lines.isEmpty then ""
  else String.mk (rstripChars (joinLinesChars (lines.map String.toList)) ++ ['\n'])

/-- A field value whose round trip through the file is at stake in the
claims: non-empty and free of control characters. -/
def goodField (s : String) : Bool :=
  s ≠ "" && s.toList.all (fun c => 32 ≤ c.val && c.val ≠ 127)

/-- Both fields of a credential are `goodField`. -/
def goodClient (c : ClientCredential) : Bool :=
  goodField c.username && goodField c.password

/-! ## Reload notifier (service.py) -/

/-- Result record of `reload_credentials`. -/
structure ReloadResult where
  used_hot_reload : Bool
deriving DecidableEq, Repr

/-- `reload_credentials` of service.py.  `postOk url` tells whether the
HTTP POST to `url` succeeds (a `false` stands for the caught
`URLError`/`HTTPError`); `restartOk` is the exit status of the
`systemctl restart` subprocess, which is run with `check=False`.  The
second component records whether the restart command was invoked. -/
def reloadCredentials (endpoint : Option String) (postOk : String → Bool)
    (restartOk : Bool) : ReloadResult × Bool :=
  match endpoint with
  | some url =>
    if url ≠ "" then
      if postOk url then ({ used_hot_reload := true }, false)
      else
        let _ := restartOk
        ({ used_hot_reload := false }, true)
    else
      let _ := restartOk
      ({ used_hot_reload := false }, true)
  | none =>
    let _ := restartOk
    ({ used_hot_reload := false }, true)

/-! ## User management (user_management.py) -/

/-- `add_user` of user_management.py over the credential-file content:
load, fail when the username is already present, otherwise append the new
record, write the file and trigger the reload hook.  The result carries
the new file content and `used_hot_reload`. -/
def addUser (content : String) (endpoint : Option String)
    (postOk : String → Bool) (restartOk : Bool) (username password : String) :
    Except String (String × Bool) :=
  match loadCredentials content with
  | .error e => .error e
  | .ok credentials =>
    if credentials.any (fun client => client.username = username) then
      .error ("User " ++ username ++ " already exists")
    else
      let credentials2 := credentials ++ [{ username := username, password := password }]
      let result := reloadCredentials endpoint postOk restartOk
      .ok (saveContent credentials2, result.1.used_hot_reload)

/-- `delete_user` of user_management.py over the credential-file content:
load, drop every record with the username, fail when nothing was dropped,
otherwise write the remaining records and trigger the reload hook. -/
def deleteUser (content : String) (endpoint : Option String)
    (postOk : String → Bool) (restartOk : Bool) (username : String) :
    Except String (String × Bool) :=
  match loadCredentials content with
  | .error e => .error e
  | .ok credentials =>
    let remaining := credentials.filter (fun client => client.username ≠ username)
    if remaining.length = credentials.length then
      .error ("User " ++ username ++ " not found")
    else
      let result := reloadCredentials endpoint postOk restartOk
      .ok (saveContent remaining, result.1.used_hot_reload)

/-- `list_users` of user_management.py. -/
def listUsers (content : String) : Except String (List String) :=
  match loadCredentials content with
  | .error e => .error e
  | .ok credentials => .ok (credentials.map (fun client => client.username))

/-! ## Chat callback handling (bot.py) -/

/-- Python `action.split(":", 1)[1]`: everything after the first colon
(only ever evaluated after a prefix check guarantees a colon). -/
def splitAfterColon (action : String) : String :=
  String.mk ((action.toList.dropWhile (fun c => c ≠ ':')).drop 1)

/-- The numeric value of a non-empty all-digit character list. -/
def digitsVal (cs : List Char) : Option Nat :=
  if cs ≠ [] ∧ cs.all (fun c => c.isDigit) then
    some (cs.foldl (fun acc c => acc * 10 + (c.toNat - 48)) 0)
  else none

/-- Python `int(text)` on the decimal forms the bot can receive: optional
surrounding whitespace, optional sign, digits (underscore separators are
not modelled). -/
def pyToInt? (s : String) : Option Int :=
  match pyStripChars s.toList with
  | '-' :: rest => (digitsVal rest).map (fun n => -(n : Int))
  | '+' :: rest => (digitsVal rest).map (fun n => (n : Int))
  | cs => (digitsVal cs).map (fun n => (n : Int))

/-- `_parse_page` of bot.py: the text after the colon as an int, 1 when it
does not parse. -/
def parsePage (action : String) : Int :=
  let pageStr := if action.toList.contains ':' then splitAfterColon action else ""
  match pyToInt? pageStr with
  | some n => n
  | none => 1

/-- The observable effect `handle_callback` selects for one button press;
the constructors name the branch taken. -/
inductive CallbackEffect where
  | insufficientRights
  | promptAddUser
  | showDeleteMenu (page : Int)
  | showAdminConfigMenu (page : Int)
  | showRules
  | myConfig
  | invalidUser
  | deleteUserAction (username : String)
  | backToMenu
  | sendConfigs (username : String)
  | answerOnly
deriving DecidableEq, Repr

/-- The branch structure of `handle_callback` in bot.py: the two admin
gates first (the set of four plain actions, then the `delete_user:`
prefix), then the if/elif dispatch in source order. -/
def handleCallback (action : String) (isAdmin : Bool) : CallbackEffect :=
  if (action = "add_user" || action = "delete_user" || action = "admin_config"
        || action = "show_rules") && !isAdmin then
    .insufficientRights
  else if pyStartsWith action "delete_user:" && !isAdmin then
    .insufficientRights
  else if action = "add_user" then .promptAddUser
  else if action = "delete_user" then .showDeleteMenu 1
  else if action = "admin_config" then .showAdminConfigMenu 1
  else if action = "show_rules" then .showRules
  else if action = "my_config" then .myConfig
  else if pyStartsWith action "delete_user:" then
    let username := splitAfterColon action
    if username = "" then .invalidUser else .deleteUserAction username
  else if action = "back_to_menu" then .backToMenu
  else if pyStartsWith action "delete_user_page:" then .showDeleteMenu (parsePage action)
  else if pyStartsWith action "admin_config_page:" then .showAdminConfigMenu (parsePage action)
  else if pyStartsWith action "admin_config_select:" then
    let username := splitAfterColon action
    if username = "" then .invalidUser else .sendConfigs username
  else .answerOnly

/-- The admin-only callback identifiers as claim C3 lists them. -/
def claimAdminOnly (action : String) : Bool :=
  action = "add_user" || action = "delete_user" || action = "admin_config"
    || action = "show_rules"
    || pyStartsWith action "delete_user:"
    || pyStartsWith action "admin_config_select:"
    || pyStartsWith action "delete_user_page:"
    || pyStartsWith action "admin_config_page:"

/-- `USER_LIST_PAGE_SIZE` of bot.py. -/
def USER_LIST_PAGE_SIZE : Nat := 10

/-- `_paginate_usernames` of bot.py, over the username list it obtains from
`list_users`: the empty list short-circuits to page 0 of 0; otherwise the
requested page is clamped to `[1, total_pages]` and the matching slice is
returned together with the effective page and the page count. -/
def paginateUsernames (usernames : List String) (page : Int) :
    List String × Int × Nat :=
  let total := usernames.length
  if total = 0 then ([], 0, 0)
  else
    let totalPages := (total + USER_LIST_PAGE_SIZE - 1) / USER_LIST_PAGE_SIZE
    let effective := max 1 (min page (totalPages : Int))
    let start := ((effective - 1) * (USER_LIST_PAGE_SIZE : Int)).toNat
    ((usernames.drop start).take USER_LIST_PAGE_SIZE, effective, totalPages)

/-! ## TOML value model for endpoint descriptors (cli_config.py, endpoint.py) -/

/-- A scalar TOML value as the descriptors use them. -/
inductive TAtom where
  | s (v : String)
  | i (v : Int)
  | b (v : Bool)
deriving DecidableEq, Repr

/-- A TOML value: a scalar or an array of scalars. -/
inductive TVal where
  | atom (a : TAtom)
  | arr (xs : List TAtom)
deriving DecidableEq, Repr

/-- A top-level entry of a parsed descriptor: a value or a section table. -/
inductive TEntry where
  | val (v : TVal)
  | tbl (kvs : List (String × TVal))
deriving DecidableEq, Repr

/-- A parsed TOML document (what `tomllib.loads` returns). -/
abbrev TDoc := List (String × TEntry)

/-- Python `str()` on a scalar. -/
def TAtom.pyStr : TAtom → String
  | .s v => v
  | .i v => toString v
  | .b v => if v then "True" else "False"

/-- Python `repr()` on a scalar, as `str()` of a list renders its
elements (quote escaping inside the repr of a string is elided; the code
only ever formats scalar fields). -/
def TAtom.pyRepr : TAtom → String
  | .s v => String.mk ('\'' :: v.toList ++ ['\''])
  | a => a.pyStr

/-- Python `str()` on a TOML value. -/
def TVal.pyStr : TVal → String
  | .atom a => a.pyStr
  | .arr xs => "[" ++ String.intercalate ", " (xs.map TAtom.pyRepr) ++ "]"

/-- Python `str()` on a top-level entry (a dict renders as its item list). -/
def TEntry.pyStr : TEntry → String
  | .val v => v.pyStr
  | .tbl kvs =>
    "\x7b" ++ String.intercalate ", "
      (kvs.map (fun p => String.mk ('\'' :: p.1.toList ++ ['\'']) ++ ": " ++ p.2.pyStr))
      ++ "\x7d"

/-- Python truthiness of a scalar. -/
def TAtom.truthy : TAtom → Bool
  | .s v => v ≠ ""
  | .i v => v ≠ 0
  | .b v => v

/-- Python truthiness of a TOML value. -/
def TVal.truthy : TVal → Bool
  | .atom a => a.truthy
  | .arr xs => !xs.isEmpty

/-- Python truthiness of a top-level entry. -/
def TEntry.truthy : TEntry → Bool
  | .val v => v.truthy
  | .tbl kvs => !kvs.isEmpty

/-- First-match lookup in a section table. -/
def tlookup (t : List (String × TVal)) (k : String) : Option TVal :=
  match t.find? (fun p => p.1 = k) with
  | some p => some p.2
  | none => none

/-- First-match lookup among the top-level entries. -/
def dlookup (data : TDoc) (k : String) : Option TEntry :=
  match data.find? (fun p => p.1 = k) with
  | some p => some p.2
  | none => none

/-- `_get_value` of cli_config.py and endpoint.py: each key at top level
first, then each key inside the `endpoint`, `client` and `connection`
sections (a non-table section is skipped); `None` when nothing matches
(the function returns `None` for required and optional fields alike). -/
def getValue (data : TDoc) (keys : List String) : Option TEntry :=
  match keys.findSome? (dlookup data) with
  | some v => some v
  | none =>
    ["endpoint", "client", "connection"].findSome? (fun sk =>
      match dlookup data sk with
      | some (.tbl t) => (keys.findSome? (tlookup t)).map TEntry.val
      | _ => none)

/-- The test `value in (None, "", [])` of the missing-field checks
(a dict never equals `""` or `[]` in Python). -/
def isEmptyVal : Option TEntry → Bool
  | none => true
  | some (.val (.atom (.s v))) => v = ""
  | some (.val (.arr xs)) => xs.isEmpty
  | some _ => false

/-- Python truthiness of an optional entry (`None` is falsy). -/
def truthyOpt : Option TEntry → Bool
  | none => false
  | some e => e.truthy

/-! ## Client config generation (cli_config.py) -/

/-- `_format_list` of cli_config.py: a non-list value is wrapped in a
singleton; every element is rendered as `"str(value)"` with `_escape`. -/
def formatList (e : TEntry) : String :=
  match e with
  | .val (.arr xs) =>
    "[" ++ String.intercalate ", "
      (xs.map (fun a => "\"" ++ escapeStr a.pyStr ++ "\"")) ++ "]"
  | other => "[\"" ++ escapeStr other.pyStr ++ "\"]"

/-- Python `value.strip("\n")`: drop leading and trailing newline
characters. -/
def stripNewlines (s : String) : String :=
  String.mk (((s.toList.dropWhile (fun c => c = '\n')).reverse.dropWhile
    (fun c => c = '\n')).reverse)

/-- `_format_multiline_string` of cli_config.py. -/
def formatMultilineString (v : String) : String :=
  "\"\"\"\n" ++ stripNewlines v ++ "\n\"\"\""

/-- The required fields of `_build_client_config_from_endpoint`, in the
order the source dict literal lists them. -/
def requiredPairs (data : TDoc) : List (String × Option TEntry) :=
  [("hostname", getValue data ["hostname"]),
   ("addresses", getValue data ["addresses"]),
   ("username", getValue data ["username"]),
   ("password", getValue data ["password"]),
   ("protocol", getValue data ["upstream_protocol", "protocol"])]

/-- The `missing` list of the source: the names of the required fields
whose value is `None`, `""` or `[]`. -/
def missingFields (data : TDoc) : List String :=
  ((requiredPairs data).filter (fun p => isEmptyVal p.2)).map (fun p => p.1)

/-- Insert into a ≤-sorted list of strings. -/
def insertSorted (s : String) : List String → List String
  | [] => [s]
  | t :: rest => if s ≤ t then s :: t :: rest else t :: insertSorted s rest

/-- Python `sorted` on a list of strings. -/
def pySorted (l : List String) : List String :=
  l.foldr insertSorted []

/-- The error message of the missing-field check:
`"Endpoint config is missing required fields: " + ", ".join(sorted(missing))`. -/
def missingMessage (data : TDoc) : String :=
  "Endpoint config is missing required fields: "
    ++ String.intercalate ", " (pySorted (missingFields data))

/-- The DNS override segment of the manual renderer: present exactly when
a non-empty override list was supplied
(`if dns_upstreams: lines.append(f"dns_upstreams = {_format_list(dns_upstreams)}")`). -/
def dnsSegment : Option (List String) → List String
  | some ds =>
    if ds ≠ [] then
      ["dns_upstreams = " ++ formatList (.val (.arr (ds.map TAtom.s)))]
    else []
  | none => []

/-- The lines `_build_client_config_from_endpoint` emits after the DNS
segment, in source order, with the optional segments written as list
concatenation. -/
def buildLinesRest (data : TDoc) : List String :=
  let hostname := getValue data ["hostname"]
  let addresses := getValue data ["addresses"]
  let username := getValue data ["username"]
  let password := getValue data ["password"]
  let protocol := getValue data ["upstream_protocol", "protocol"]
  let fallback := getValue data ["upstream_fallback_protocol"]
  let hasIpv6 := getValue data ["has_ipv6"]
  let antiDpi := getValue data ["anti_dpi"]
  let certificate := getValue data ["certificate"]
  ["[endpoint]",
   "hostname = \"" ++ escapeStr ((hostname.map TEntry.pyStr).getD "None") ++ "\"",
   "addresses = " ++ formatList (addresses.getD (.val (.atom (.s "None"))))]
  ++ (match hasIpv6 with
      | some v => ["has_ipv6 = " ++ (if v.truthy then "true" else "false")]
      | none => [])
  ++ ["username = \"" ++ escapeStr ((username.map TEntry.pyStr).getD "None") ++ "\"",
      "password = \"" ++ escapeStr ((password.map TEntry.pyStr).getD "None") ++ "\"",
      "upstream_protocol = \"" ++ escapeStr ((protocol.map TEntry.pyStr).getD "None") ++ "\""]
  ++ (if !isEmptyVal fallback then
        ["upstream_fallback_protocol = \""
          ++ escapeStr ((fallback.map TEntry.pyStr).getD "None") ++ "\""]
      else [])
  ++ (match antiDpi with
      | some v => ["anti_dpi = " ++ (if v.truthy then "true" else "false")]
      | none => [])
  ++ (if truthyOpt certificate then
        ["certificate = " ++ formatMultilineString ((certificate.map TEntry.pyStr).getD "None")]
      else ["skip_verification = true"])
  ++ ["[listener]",
      "[listener.tun]",
      "bound_if = \"\"",
      "included_routes = [\"0.0.0.0/0\", \"2000::/3\", \"10.3.2.1/32\"]",
      "excluded_routes = [\"0.0.0.0/8\", \"169.254.0.0/16\", \"172.16.0.0/12\", \"192.168.0.0/16\", \"224.0.0.0/3\"]",
      "mtu_size = 1500",
      "change_system_dns = true"]

/-- The full line list `_build_client_config_from_endpoint` assembles once
the missing-field check has passed. -/
def buildLines (data : TDoc) (dns : Option (List String)) : List String :=
  ["vpn_mode = \"general\"", "killswitch_enabled = true"]
    ++ dnsSegment dns ++ buildLinesRest data

/-- Python `"\n".join(lines).rstrip() + "\n"`. -/
def joinedContent (lines : List String) : String :=
  String.mk (rstripChars (joinLinesChars (lines.map String.toList)) ++ ['\n'])

/-- `_build_client_config_from_endpoint` of cli_config.py: the
missing-field check, then the assembled lines and the skip-verification
flag (true exactly when no truthy certificate is present). -/
def buildClientConfigFromEndpoint (data : TDoc) (dns : Option (List String)) :
    Except String (List String × Bool) :=
  if missingFields data ≠ [] then .error (missingMessage data)
  else .ok (buildLines data dns, !truthyOpt (getValue data ["certificate"]))

/-- The line test of `_merge_dns_upstreams`:
`line.strip().startswith("dns_upstreams")`. -/
def isDnsLine (l : String) : Bool :=
  pyStartsWith (pyStrip l) "dns_upstreams"

/-- The rendered override line of `_merge_dns_upstreams`:
`f"dns_upstreams = {_format_list(dns_upstreams)}"`. -/
def dnsRendered (dns : List String) : String :=
  "dns_upstreams = " ++ formatList (.val (.arr (dns.map TAtom.s)))

/-- The loop of `_merge_dns_upstreams` on the split lines: replace the
first `dns_upstreams` line, or append the rendered line when none is
found. -/
def mergeDnsLines (lines : List String) (rendered : String) : List String :=
  match lines with
  | [] => [rendered]
  | l :: rest =>
    if isDnsLine l then rendered :: rest
    else l :: mergeDnsLines rest rendered

/-- `_merge_dns_upstreams` of cli_config.py. -/
def mergeDnsUpstreams (content : String) (dns : List String) : String :=
  joinedContent (mergeDnsLines (pySplitlines content) (dnsRendered dns))

/-- Count of `dns_upstreams` lines in a content string. -/
def dnsLineCount (content : String) : Nat :=
  ((pySplitlines content).filter isDnsLine).length

/-- Result record of `generate_client_config`. -/
structure ClientConfigResult where
  content : String
  used_setup_wizard : Bool
  skip_verification : Bool
deriving DecidableEq, Repr

/-- `generate_client_config` of cli_config.py with the external
`trusttunnel_client setup_wizard` run modelled as an oracle: `wizard` is
the content the wizard wrote when it succeeded, `none` when it failed or
its output file is absent.  On wizard success a non-empty DNS override is
merged into its output; otherwise the manual renderer builds the config
with the override inline. -/
def generateClientConfig (wizard : Option String) (data : TDoc)
    (dns : Option (List String)) (preferSetupWizard : Bool) :
    Except String ClientConfigResult :=
  match (if preferSetupWizard then wizard else none) with
  | some wizardContent =>
    match dns with
    | some ds =>
      if ds ≠ [] then
        .ok { content := mergeDnsUpstreams wizardContent ds,
              used_setup_wizard := true, skip_verification := false }
      else
        .ok { content := wizardContent,
              used_setup_wizard := true, skip_verification := false }
    | none =>
      .ok { content := wizardContent,
            used_setup_wizard := true, skip_verification := false }
  | none =>
    match buildClientConfigFromEndpoint data dns with
    | .error e => .error e
    | .ok (lines, skip) =>
      .ok { content := joinedContent lines,
            used_setup_wizard := false, skip_verification := skip }

/-! ## Connection profile (endpoint.py) -/

/-- `ConnectionProfile` of endpoint.py. -/
structure ConnectionProfile where
  server_name : String
  address : String
  hostname : String
  username : String
  password : String
  protocol : String
  dns : String
  self_signed : Bool
deriving DecidableEq, Repr

/-- `_pick_address` of endpoint.py: the first element of a list (or `""`
for an empty list), `str(addresses)` otherwise. -/
def pickAddress : TEntry → String
  | .val (.arr (x :: _)) => x.pyStr
  | .val (.arr []) => ""
  | e => e.pyStr

/-- `_format_dns` of endpoint.py. -/
def formatDns (dns : Option TEntry) : String :=
  if isEmptyVal dns then "default (system)"
  else
    match dns with
    | some (.val (.arr xs)) => String.intercalate ", " (xs.map TAtom.pyStr)
    | some e => e.pyStr
    | none => "default (system)"

/-- The accepted self-signed key spellings of `_is_self_signed`. -/
def selfSignedKeys : List String :=
  ["self_signed", "selfSigned", "certificate_is_self_signed"]

/-- The search locations of `_is_self_signed` in source order: for each
location that holds one of the accepted keys, the Python truthiness of
its value.  The first hit is returned, matching the early `return
bool(...)` of the source. -/
def selfSignedCandidates (data : TDoc) : List (Option Bool) :=
  selfSignedKeys.map (fun k => (dlookup data k).map TEntry.truthy)
  ++ (["endpoint", "client", "connection"].flatMap (fun sk =>
        match dlookup data sk with
        | some (.tbl t) => selfSignedKeys.map (fun k => (tlookup t k).map TVal.truthy)
        | _ => selfSignedKeys.map (fun _ => none)))

/-- `_is_self_signed` of endpoint.py: the truthiness of the first
accepted spelling found, `False` when none is present. -/
def isSelfSigned (data : TDoc) : Bool :=
  ((selfSignedCandidates data).findSome? id).getD false

/-- The reading claim C8 gives of the self-signed rule: some accepted
spelling is present with a truthy value at any accepted location. -/
def anyTruthySpelling (data : TDoc) : Bool :=
  (selfSignedCandidates data).any (fun o => o = some true)

/-- Python `str.lower()` (ASCII, which covers the protocol names the code
handles). -/
def pyLower (s : String) : String :=
  String.mk (s.toList.map Char.toLower)

/-- `build_connection_profile` of endpoint.py: the same missing-field
check as the client-config builder, then the pure projection into a
`ConnectionProfile`. -/
def buildConnectionProfile (data : TDoc) (serverName : Option String) :
    Except String ConnectionProfile :=
  if missingFields data ≠ [] then .error (missingMessage data)
  else
    let hostname := ((getValue data ["hostname"]).map TEntry.pyStr).getD "None"
    let addresses := (getValue data ["addresses"]).getD (.val (.atom (.s "None")))
    let username := ((getValue data ["username"]).map TEntry.pyStr).getD "None"
    let password := ((getValue data ["password"]).map TEntry.pyStr).getD "None"
    let protocol := ((getValue data ["upstream_protocol", "protocol"]).map TEntry.pyStr).getD "None"
    let dns := getValue data ["dns_upstreams", "dns"]
    let resolvedServerName :=
      match serverName with
      | some s => if s ≠ "" then s else hostname ++ "-server"
      | none => hostname ++ "-server"
    .ok { server_name := resolvedServerName,
          address := pickAddress addresses,
          hostname := hostname,
          username := username,
          password := password,
          protocol := pyLower protocol,
          dns := formatDns dns,
          self_signed := isSelfSigned data }

/-! ## Derived shapes of the serializer output (proof scaffolding) -/

/-- The character stream one serialized record contributes: header line,
username line, password line, each followed by a newline. -/
def blockStream (c : ClientCredential) : List Char :=
  "[[client]]".toList ++ '\n' ::
    (("username = \"".toList ++ escapeChars c.username.toList ++ ['"']) ++ '\n' ::
      (("password = \"".toList ++ escapeChars c.password.toList ++ ['"']) ++ ['\n']))

/-- The `[[client]]` tables the parser recovers from serialized records. -/
def credTables (cs : List ClientCredential) : List (List (String × String)) :=
  cs.map (fun c => [("username", c.username), ("password", c.password)])

/-- The classified line stream of serialized records: each block is a
header and two key/value lines, and consecutive blocks are separated by a
blank line. -/
def credPLines : List ClientCredential → List PLine
  | [] => []
  | [c] => [.header, .kv "username" c.username, .kv "password" c.password]
  | c :: rest =>
    [.header, .kv "username" c.username, .kv "password" c.password, .blank]
      ++ credPLines rest

/-! ## Concrete documents used by witnesses and counterexamples -/

/-- A well-formed endpoint descriptor with a single self-signed spelling. -/
def endpointDocA : TDoc :=
  [("hostname", .val (.atom (.s "vpn.example.org"))),
   ("addresses", .val (.arr [.s "203.0.113.7", .s "203.0.113.8"])),
   ("username", .val (.atom (.s "alice"))),
   ("password", .val (.atom (.s "sekret"))),
   ("upstream_protocol", .val (.atom (.s "HTTP2"))),
   ("dns_upstreams", .val (.arr [.s "9.9.9.9", .s "1.1.1.1"])),
   ("selfSigned", .val (.atom (.b true)))]

/-- The profile `build_connection_profile` derives from `endpointDocA`. -/
def profileA : ConnectionProfile :=
  { server_name := "vpn.example.org-server",
    address := "203.0.113.7",
    hostname := "vpn.example.org",
    username := "alice",
    password := "sekret",
    protocol := "http2",
    dns := "9.9.9.9, 1.1.1.1",
    self_signed := true }

/-- An endpoint descriptor carrying two self-signed spellings with opposite
truthiness: `self_signed = false` is found first, `selfSigned = true` is
ignored by the source. -/
def endpointDocB : TDoc :=
  [("hostname", .val (.atom (.s "vpn.example.org"))),
   ("addresses", .val (.arr [.s "203.0.113.7"])),
   ("username", .val (.atom (.s "alice"))),
   ("password", .val (.atom (.s "sekret"))),
   ("upstream_protocol", .val (.atom (.s "http2"))),
   ("self_signed", .val (.atom (.b false))),
   ("selfSigned", .val (.atom (.b true)))]

/-! ## Helper lemmas: Python string primitives -/

theorem dropWhile_append_stop {p : Char → Bool} {l₁ l₂ : List Char} {b : Char}
    (h₁ : ∀ a ∈ l₁, p a = true) (hb : p b = false) :
    (l₁ ++ b :: l₂).dropWhile p = b :: l₂ := by
  induction l₁ with
  | nil => simp [List.dropWhile_cons, hb]
  | cons a l ih =>
    have ha : p a = true := h₁ a (List.mem_cons_self a l)
    simp only [List.cons_append, List.dropWhile_cons, ha, if_true]
    exact ih (fun x hx => h₁ x (List.mem_cons_of_mem a hx))

theorem takeWhile_append_stop {p : Char → Bool} {l₁ l₂ : List Char} {b : Char}
    (h₁ : ∀ a ∈ l₁, p a = true) (hb : p b = false) :
    (l₁ ++ b :: l₂).takeWhile p = l₁ := by
  induction l₁ with
  | nil => simp [List.takeWhile_cons, hb]
  | cons a l ih =>
    have ha : p a = true := h₁ a (List.mem_cons_self a l)
    simp only [List.cons_append, List.takeWhile_cons, ha, if_true]
    exact congrArg (List.cons a) (ih (fun x hx => h₁ x (List.mem_cons_of_mem a hx)))

theorem dropWhile_append_last {p : Char → Bool} {l : List Char} {b : Char}
    (hb : p b = false) : ∃ t, (l ++ [b]).dropWhile p = t ++ [b] := by
  induction l with
  | nil => exact ⟨[], by simp [List.dropWhile_cons, hb]⟩
  | cons a l ih =>
    by_cases ha : p a = true
    · simpa [List.dropWhile_cons, ha] using ih
    · exact ⟨a :: l, by simp [List.dropWhile_cons, ha]⟩

theorem rstripChars_last_nonspace {l : List Char} {b : Char}
    (hb : pyIsSpace b = false) : rstripChars (l ++ [b]) = l ++ [b] := by
  simp [rstripChars, List.dropWhile_cons, hb]

theorem rstripChars_head_nonspace {c : Char} (l : List Char)
    (hc : pyIsSpace c = false) : ∃ t, rstripChars (c :: l) = c :: t := by
  unfold rstripChars
  rw [show (c :: l).reverse = l.reverse ++ [c] by simp]
  obtain ⟨t, ht⟩ := @dropWhile_append_last pyIsSpace l.reverse c hc
  exact ⟨t.reverse, by simp [ht]⟩

theorem pyStripChars_head_nonspace {c : Char} (l : List Char)
    (hc : pyIsSpace c = false) : ∃ t, pyStripChars (c :: l) = c :: t := by
  unfold pyStripChars
  rw [List.dropWhile_cons, hc]
  simpa using rstripChars_head_nonspace l hc

theorem pyStripChars_of_ends {c b : Char} (l : List Char)
    (hc : pyIsSpace c = false) (hb : pyIsSpace b = false) :
    pyStripChars ((c :: l) ++ [b]) = (c :: l) ++ [b] := by
  have h1 : List.dropWhile pyIsSpace ((c :: l) ++ [b]) = (c :: l) ++ [b] := by
    simp [List.dropWhile_cons, hc]
  unfold pyStripChars
  rw [h1]
  exact rstripChars_last_nonspace hb

theorem splitLinesChars_append_newline {l rest : List Char}
    (h : '\n' ∉ l) :
    splitLinesChars (l ++ '\n' :: rest) = l :: splitLinesChars rest := by
  induction l with
  | nil => simp [splitLinesChars]
  | cons c t ih =>
    have hc : c = '\n' → False := fun hcc => h (hcc ▸ List.mem_cons_self c t)
    have ht : '\n' ∉ t := fun hm => h (List.mem_cons_of_mem c hm)
    rw [List.cons_append, splitLinesChars.eq_3 c _ hc, ih ht]

theorem joinLinesChars_cons₂ (a b : List Char) (t : List (List Char)) :
    joinLinesChars (a :: b :: t) = a ++ '\n' :: joinLinesChars (b :: t) := rfl

theorem joinLinesChars_append {l₁ l₂ : List (List Char)}
    (h₁ : l₁ ≠ []) (h₂ : l₂ ≠ []) :
    joinLinesChars (l₁ ++ l₂) = joinLinesChars l₁ ++ '\n' :: joinLinesChars l₂ := by
  induction l₁ with
  | nil => exact absurd rfl h₁
  | cons a t ih =>
    cases t with
    | nil =>
      cases l₂ with
      | nil => exact absurd rfl h₂
      | cons b t2 => simp [joinLinesChars_cons₂, joinLinesChars]
    | cons a2 t2 =>
      calc joinLinesChars ((a :: a2 :: t2) ++ l₂)
          = a ++ '\n' :: joinLinesChars ((a2 :: t2) ++ l₂) :=
            joinLinesChars_cons₂ a a2 (t2 ++ l₂)
        _ = a ++ '\n' :: (joinLinesChars (a2 :: t2) ++ '\n' :: joinLinesChars l₂) := by
            rw [ih (by simp)]
        _ = (a ++ '\n' :: joinLinesChars (a2 :: t2)) ++ '\n' :: joinLinesChars l₂ := by
            simp
        _ = joinLinesChars (a :: a2 :: t2) ++ '\n' :: joinLinesChars l₂ := by
            rw [joinLinesChars_cons₂]

theorem unquoteChars_escape (cs : List Char) :
    unquoteChars (escapeChars cs ++ ['"']) = some cs := by
  induction cs with
  | nil => rfl
  | cons c t ih =>
    by_cases hc : (c = '\\' || c = '"') = true
    · simp only [escapeChars, hc, if_true, List.cons_append, List.nil_append]
      rw [unquoteChars.eq_4, ih]
      rfl
    · have hc1 : c ≠ '\\' := fun h => hc (by simp [h])
      have hc2 : c ≠ '"' := fun h => hc (by simp [h])
      have hstep : escapeChars (c :: t) = c :: escapeChars t := by
        simp [escapeChars, hc1, hc2]
      rw [hstep, List.cons_append,
        unquoteChars.eq_5 c _ (fun h _ => hc2 h) (fun _ _ h _ => hc2 h)
          (fun _ _ h _ => hc1 h), ih]
      rfl

theorem mem_escapeChars {c : Char} {cs : List Char} (h : c ∈ escapeChars cs) :
    c ∈ cs ∨ c = '\\' := by
  induction cs with
  | nil => simp [escapeChars] at h
  | cons a t ih =>
    simp only [escapeChars] at h
    rcases List.mem_append.mp h with h1 | h1
    · by_cases ha : (a = '\\' || a = '"') = true
      · simp [ha] at h1
        rcases h1 with h1 | h1
        · exact Or.inr h1
        · exact Or.inl (h1 ▸ List.mem_cons_self a t)
      · simp [ha] at h1
        exact Or.inl (h1 ▸ List.mem_cons_self a t)
    · rcases ih h1 with h2 | h2
      · exact Or.inl (List.mem_cons_of_mem a h2)
      · exact Or.inr h2

theorem newline_not_mem_escapeChars {cs : List Char} (h : '\n' ∉ cs) :
    '\n' ∉ escapeChars cs := by
  intro hm
  rcases mem_escapeChars hm with h1 | h1
  · exact h h1
  · exact absurd h1 (by decide)

/-! ## Helper lemmas: classifying the serializer's lines -/

theorem classifyLine_header : classifyLine "[[client]]" = .header := by decide

theorem classifyLine_blank : classifyLine "" = .blank := by decide

theorem classifyLine_quoted_kv (c0 : Char) (K2 : List Char) (key : String)
    (vs : List Char)
    (h0 : pyIsSpace c0 = false) (h1 : c0 ≠ '#') (h2 : c0 ≠ '[')
    (h3 : ∀ a ∈ c0 :: K2, (decide (a ≠ '=') : Bool) = true)
    (h4 : pyStripChars (c0 :: K2) = key.toList) :
    classifyLine (String.mk ((c0 :: K2) ++ '=' :: ' ' :: '"' ::
      (escapeChars vs ++ ['"']))) = .kv key (String.mk vs) := by
  have hshape : (c0 :: K2) ++ '=' :: ' ' :: '"' :: (escapeChars vs ++ ['"'])
      = (c0 :: (K2 ++ '=' :: ' ' :: '"' :: escapeChars vs)) ++ ['"'] := by
    simp
  have hstrip : pyStripChars ((c0 :: K2) ++ '=' :: ' ' :: '"' ::
      (escapeChars vs ++ ['"']))
      = (c0 :: K2) ++ '=' :: ' ' :: '"' :: (escapeChars vs ++ ['"']) := by
    rw [hshape]
    exact pyStripChars_of_ends _ h0 (by decide)
  have hv : pyStripChars (' ' :: '"' :: (escapeChars vs ++ ['"']))
      = '"' :: (escapeChars vs ++ ['"']) := by
    unfold pyStripChars
    rw [List.dropWhile_cons]
    simp only [show pyIsSpace ' ' = true from by decide, if_true]
    rw [List.dropWhile_cons]
    simp only [show pyIsSpace '"' = false from by decide, if_false,
      Bool.false_eq_true]
    rw [show '"' :: (escapeChars vs ++ ['"'])
        = ('"' :: escapeChars vs) ++ ['"'] from by simp]
    exact rstripChars_last_nonspace (by decide)
  have hkv : parseKV ((c0 :: K2) ++ '=' :: ' ' :: '"' :: (escapeChars vs ++ ['"']))
      = some (key, '"' :: (escapeChars vs ++ ['"'])) := by
    unfold parseKV
    rw [dropWhile_append_stop (fun a ha => h3 a ha) (by decide)]
    rw [takeWhile_append_stop (fun a ha => h3 a ha) (by decide)]
    show some (String.mk (pyStripChars (c0 :: K2)),
      pyStripChars (' ' :: '"' :: (escapeChars vs ++ ['"'])))
      = some (key, '"' :: (escapeChars vs ++ ['"']))
    rw [hv, h4]
    rfl
  have hval : parseValue ('"' :: (escapeChars vs ++ ['"'])) = some (String.mk vs) := by
    show (unquoteChars (escapeChars vs ++ ['"'])).map String.mk = some (String.mk vs)
    rw [unquoteChars_escape]
    rfl
  have hne1 : ¬((c0 :: K2) ++ '=' :: ' ' :: '"' :: (escapeChars vs ++ ['"']) = []) := by
    simp
  have hne2 : ¬(((c0 :: K2) ++ '=' :: ' ' :: '"' ::
      (escapeChars vs ++ ['"'])).head? = some '#') := by
    simp [h1]
  have hne3 : ¬((c0 :: K2) ++ '=' :: ' ' :: '"' :: (escapeChars vs ++ ['"'])
      = "[[client]]".toList) := by
    rw [show "[[client]]".toList = '[' :: "[client]]".toList from by decide]
    simp [h2]
  show classifyLine (String.mk ((c0 :: K2) ++ '=' :: ' ' :: '"' ::
      (escapeChars vs ++ ['"']))) = .kv key (String.mk vs)
  unfold classifyLine
  rw [show (String.mk ((c0 :: K2) ++ '=' :: ' ' :: '"' ::
      (escapeChars vs ++ ['"']))).toList
      = (c0 :: K2) ++ '=' :: ' ' :: '"' :: (escapeChars vs ++ ['"']) from rfl]
  rw [hstrip, if_neg hne1, if_neg hne2, if_neg hne3, hkv]
  show (match parseValue ('"' :: (escapeChars vs ++ ['"'])) with
    | some s => PLine.kv key s
    | none => PLine.bad) = PLine.kv key (String.mk vs)
  rw [hval]

theorem classify_username_line (us : List Char) :
    classifyLine (String.mk ("username = \"".toList ++ escapeChars us ++ ['"']))
      = .kv "username" (String.mk us) := by
  rw [show "username = \"".toList ++ escapeChars us ++ ['"']
      = ('u' :: "sername ".toList) ++ '=' :: ' ' :: '"' :: (escapeChars us ++ ['"']) from by
    rw [show "username = \"".toList = ('u' :: "sername ".toList) ++ ['=', ' ', '"'] from by decide]
    simp]
  exact classifyLine_quoted_kv 'u' "sername ".toList "username" us
    (by decide) (by decide) (by decide) (by decide) (by decide)

theorem classify_password_line (ps : List Char) :
    classifyLine (String.mk ("password = \"".toList ++ escapeChars ps ++ ['"']))
      = .kv "password" (String.mk ps) := by
  rw [show "password = \"".toList ++ escapeChars ps ++ ['"']
      = ('p' :: "assword ".toList) ++ '=' :: ' ' :: '"' :: (escapeChars ps ++ ['"']) from by
    rw [show "password = \"".toList = ('p' :: "assword ".toList) ++ ['=', ' ', '"'] from by decide]
    simp]
  exact classifyLine_quoted_kv 'p' "assword ".toList "password" ps
    (by decide) (by decide) (by decide) (by decide) (by decide)

theorem joinLines_block (c : ClientCredential) :
    joinLinesChars ((clientBlockLines c).map String.toList) = blockStream c := by
  simp only [clientBlockLines, List.map_cons, List.map_nil]
  rw [joinLinesChars_cons₂, joinLinesChars_cons₂, joinLinesChars_cons₂]
  simp [blockStream, joinLinesChars]

theorem joinLines_flatMap (c : ClientCredential) (cs : List ClientCredential)
    (h : cs ≠ []) :
    joinLinesChars (((c :: cs).flatMap clientBlockLines).map String.toList)
      = blockStream c ++ '\n' :: joinLinesChars ((cs.flatMap clientBlockLines).map String.toList) := by
  rw [show (c :: cs).flatMap clientBlockLines
      = clientBlockLines c ++ cs.flatMap clientBlockLines from by simp]
  rw [List.map_append]
  rw [joinLinesChars_append (by simp [clientBlockLines])
    (by cases cs with
        | nil => exact absurd rfl h
        | cons d t => simp [clientBlockLines])]
  rw [joinLines_block]

theorem newline_not_mem_uline (c : ClientCredential)
    (h : '\n' ∉ c.username.toList) :
    '\n' ∉ "username = \"".toList ++ escapeChars c.username.toList ++ ['"'] := by
  intro hm
  rcases List.mem_append.mp hm with hm1 | hm1
  · rcases List.mem_append.mp hm1 with hm2 | hm2
    · exact absurd hm2 (by decide)
    · exact newline_not_mem_escapeChars h hm2
  · exact absurd hm1 (by decide)

theorem newline_not_mem_pline (c : ClientCredential)
    (h : '\n' ∉ c.password.toList) :
    '\n' ∉ "password = \"".toList ++ escapeChars c.password.toList ++ ['"'] := by
  intro hm
  rcases List.mem_append.mp hm with hm1 | hm1
  · rcases List.mem_append.mp hm1 with hm2 | hm2
    · exact absurd hm2 (by decide)
    · exact newline_not_mem_escapeChars h hm2
  · exact absurd hm1 (by decide)

theorem splitLines_blockStream (c : ClientCredential) (rest : List Char)
    (hu : '\n' ∉ c.username.toList) (hp : '\n' ∉ c.password.toList) :
    splitLinesChars (blockStream c ++ rest)
      = "[[client]]".toList
        :: ("username = \"".toList ++ escapeChars c.username.toList ++ ['"'])
        :: ("password = \"".toList ++ escapeChars c.password.toList ++ ['"'])
        :: splitLinesChars rest := by
  rw [show blockStream c ++ rest
      = "[[client]]".toList ++ '\n' ::
          (("username = \"".toList ++ escapeChars c.username.toList ++ ['"']) ++ '\n' ::
            (("password = \"".toList ++ escapeChars c.password.toList ++ ['"']) ++ '\n' :: rest)) from by
    simp [blockStream]]
  rw [splitLinesChars_append_newline (by decide)]
  rw [splitLinesChars_append_newline (newline_not_mem_uline c hu)]
  rw [splitLinesChars_append_newline (newline_not_mem_pline c hp)]

theorem rstripChars_quote_newline (W : List Char) :
    rstripChars (W ++ ['"', '\n']) = W ++ ['"'] := by
  unfold rstripChars
  rw [show (W ++ ['"', '\n']).reverse = '\n' :: '"' :: W.reverse from by simp]
  rw [List.dropWhile_cons]
  simp only [show pyIsSpace '\n' = true from by decide, if_true]
  rw [List.dropWhile_cons]
  simp only [show pyIsSpace '"' = false from by decide, if_false, Bool.false_eq_true]
  simp

theorem join_save_shape (cs : List ClientCredential) (h : cs ≠ []) :
    ∃ W, joinLinesChars ((cs.flatMap clientBlockLines).map String.toList)
      = W ++ ['"', '\n'] := by
  induction cs with
  | nil => exact absurd rfl h
  | cons c t ih =>
    cases t with
    | nil =>
      refine ⟨"[[client]]".toList ++ '\n' ::
        (("username = \"".toList ++ escapeChars c.username.toList ++ ['"']) ++ '\n' ::
          ("password = \"".toList ++ escapeChars c.password.toList)), ?_⟩
      rw [show ([c] : List ClientCredential).flatMap clientBlockLines
          = clientBlockLines c from by simp]
      rw [joinLines_block]
      simp [blockStream]
    | cons d t2 =>
      obtain ⟨W, hW⟩ := ih (by simp)
      refine ⟨blockStream c ++ '\n' :: W, ?_⟩
      rw [joinLines_flatMap c (d :: t2) (by simp), hW]
      simp

theorem saveContent_toList (cs : List ClientCredential) (h : cs ≠ []) :
    (saveContent cs).toList
      = joinLinesChars ((cs.flatMap clientBlockLines).map String.toList) := by
  obtain ⟨W, hW⟩ := join_save_shape cs h
  have hne : (cs.flatMap clientBlockLines).isEmpty = false := by
    cases cs with
    | nil => exact absurd rfl h
    | cons c t => simp [clientBlockLines]
  show (if (cs.flatMap clientBlockLines).isEmpty then ""
    else String.mk (rstripChars (joinLinesChars
      ((cs.flatMap clientBlockLines).map String.toList)) ++ ['\n'])).toList = _
  rw [hne]
  show rstripChars (joinLinesChars
    ((cs.flatMap clientBlockLines).map String.toList)) ++ ['\n'] = _
  rw [hW, rstripChars_quote_newline]
  simp

theorem goodField_no_newline {s : String} (h : goodField s = true) :
    '\n' ∉ s.toList := by
  intro hm
  simp only [goodField, Bool.and_eq_true] at h
  have h3 := List.all_eq_true.mp h.2 _ hm
  exact absurd h3 (by decide)

theorem classify_save (cs : List ClientCredential) (h : cs ≠ [])
    (hg : ∀ c ∈ cs, goodClient c = true) :
    (splitLinesChars ((saveContent cs).toList)).map (fun l => classifyLine (String.mk l))
      = credPLines cs := by
  induction cs with
  | nil => exact absurd rfl h
  | cons c t ih =>
    have hgc := hg c (List.mem_cons_self c t)
    simp only [goodClient, Bool.and_eq_true] at hgc
    have hu : '\n' ∉ c.username.toList := goodField_no_newline hgc.1
    have hp : '\n' ∉ c.password.toList := goodField_no_newline hgc.2
    cases t with
    | nil =>
      rw [saveContent_toList [c] (by simp)]
      rw [show ([c] : List ClientCredential).flatMap clientBlockLines
          = clientBlockLines c from by simp]
      rw [joinLines_block]
      rw [show blockStream c = blockStream c ++ [] from by simp]
      rw [splitLines_blockStream c [] hu hp]
      show [classifyLine "[[client]]",
        classifyLine (String.mk ("username = \"".toList ++ escapeChars c.username.toList ++ ['"'])),
        classifyLine (String.mk ("password = \"".toList ++ escapeChars c.password.toList ++ ['"']))]
        = credPLines [c]
      rw [classifyLine_header, classify_username_line, classify_password_line]
      rfl
    | cons d t2 =>
      rw [saveContent_toList (c :: d :: t2) (by simp)]
      rw [joinLines_flatMap c (d :: t2) (by simp)]
      rw [show blockStream c ++ '\n' ::
            joinLinesChars (((d :: t2).flatMap clientBlockLines).map String.toList)
          = blockStream c ++ ('\n' ::
            joinLinesChars (((d :: t2).flatMap clientBlockLines).map String.toList)) from rfl]
      rw [splitLines_blockStream c _ hu hp]
      rw [splitLinesChars.eq_2]
      rw [← saveContent_toList (d :: t2) (by simp)]
      simp only [List.map_cons]
      rw [show classifyLine (String.mk "[[client]]".toList) = PLine.header from
        classifyLine_header]
      rw [classify_username_line, classify_password_line,
        ih (by simp) (fun x hx => hg x (List.mem_cons_of_mem c hx))]
      show PLine.header :: PLine.kv "username" c.username
          :: PLine.kv "password" c.password :: classifyLine (String.mk [])
          :: credPLines (d :: t2)
        = credPLines (c :: d :: t2)
      rw [show classifyLine (String.mk []) = classifyLine "" from rfl, classifyLine_blank]
      rfl

theorem accumulate_block (u p : String) (rest : List PLine)
    (acc : List (List (String × String))) :
    accumulate (.header :: .kv "username" u :: .kv "password" p :: rest) acc
      = accumulate rest (acc ++ [[("username", u), ("password", p)]]) := by
  show accumulate (.kv "username" u :: .kv "password" p :: rest) (acc ++ [[]]) = _
  have a1 : addKV (acc ++ [[]]) "username" u = some (acc ++ [[("username", u)]]) := by
    unfold addKV
    rw [List.getLast?_concat, List.dropLast_concat]
    rfl
  rw [show accumulate (.kv "username" u :: .kv "password" p :: rest) (acc ++ [[]])
      = (match addKV (acc ++ [[]]) "username" u with
         | some acc2 => accumulate (.kv "password" p :: rest) acc2
         | none => none) from rfl]
  rw [a1]
  have a2 : addKV (acc ++ [[("username", u)]]) "password" p
      = some (acc ++ [[("username", u), ("password", p)]]) := by
    unfold addKV
    rw [List.getLast?_concat, List.dropLast_concat]
    rfl
  show (match addKV (acc ++ [[("username", u)]]) "password" p with
        | some acc2 => accumulate rest acc2
        | none => none) = _
  rw [a2]

theorem accumulate_credPLines (cs : List ClientCredential) :
    ∀ acc, accumulate (credPLines cs) acc = some (acc ++ credTables cs) := by
  induction cs with
  | nil => intro acc; simp [credPLines, credTables, accumulate]
  | cons c t ih =>
    intro acc
    cases t with
    | nil =>
      rw [show credPLines [c]
          = [.header, .kv "username" c.username, .kv "password" c.password] from rfl]
      rw [accumulate_block]
      rfl
    | cons d t2 =>
      rw [show credPLines (c :: d :: t2)
          = .header :: .kv "username" c.username :: .kv "password" c.password
            :: .blank :: credPLines (d :: t2) from rfl]
      rw [accumulate_block]
      rw [show accumulate (PLine.blank :: credPLines (d :: t2))
            (acc ++ [[("username", c.username), ("password", c.password)]])
          = accumulate (credPLines (d :: t2))
            (acc ++ [[("username", c.username), ("password", c.password)]]) from rfl]
      rw [ih]
      simp [credTables]

theorem clientOfTable_pair (c : ClientCredential) (hc : goodClient c = true) :
    clientOfTable [("username", c.username), ("password", c.password)] = .ok c := by
  simp only [goodClient, Bool.and_eq_true, goodField] at hc
  have hu : ¬(c.username = "") := by
    have := hc.1.1
    simpa using this
  have hp : ¬(c.password = "") := by
    have := hc.2.1
    simpa using this
  show (if c.username = "" || c.password = "" then
      Except.error "Each client must have username and password"
    else Except.ok { username := c.username, password := c.password })
    = Except.ok c
  rw [if_neg (by simp [hu, hp])]

theorem mapM_credTables (cs : List ClientCredential)
    (hg : ∀ c ∈ cs, goodClient c = true) :
    (credTables cs).mapM clientOfTable = Except.ok cs := by
  induction cs with
  | nil => rfl
  | cons c t ih =>
    rw [show credTables (c :: t)
        = [("username", c.username), ("password", c.password)] :: credTables t from rfl]
    rw [List.mapM_cons]
    rw [clientOfTable_pair c (hg c (List.mem_cons_self c t))]
    rw [ih (fun x hx => hg x (List.mem_cons_of_mem c hx))]
    rfl

theorem load_save_roundtrip (cs : List ClientCredential)
    (hg : ∀ c ∈ cs, goodClient c = true) :
    loadCredentials (saveContent cs) = .ok cs := by
  cases cs with
  | nil => rfl
  | cons c t =>
    unfold loadCredentials
    rw [show (pySplitlines (saveContent (c :: t))).map classifyLine
        = (splitLinesChars ((saveContent (c :: t)).toList)).map
            (fun l => classifyLine (String.mk l)) from by
      simp [pySplitlines, List.map_map]]
    rw [classify_save (c :: t) (by simp) hg]
    rw [accumulate_credPLines]
    rw [show ([] : List (List (String × String))) ++ credTables (c :: t)
        = credTables (c :: t) from by simp]
    show (credTables (c :: t)).mapM clientOfTable = Except.ok (c :: t)
    exact mapM_credTables (c :: t) hg

/-! ## Helper lemmas: prefixes, sorting, pagination, merge -/

theorem pyStartsWith_head_false (s pre : String) (c cp : Char) (r rp : List Char)
    (hs : s.toList = c :: r) (hp : pre.toList = cp :: rp) (hne : cp ≠ c) :
    pyStartsWith s pre = false := by
  unfold pyStartsWith
  rw [hs, hp, List.isPrefixOf]
  rw [show (cp == c) = false from beq_eq_false_iff_ne.mpr hne]
  simp

theorem toList_append2 (lit x : String) (c : Char) (t : List Char)
    (hl : lit.toList = c :: t) : (lit ++ x).toList = c :: (t ++ x.toList) := by
  rw [show (lit ++ x).toList = lit.toList ++ x.toList from String.data_append lit x, hl]
  rfl

theorem toList_append3 (lit x suf : String) (c : Char) (t : List Char)
    (hl : lit.toList = c :: t) :
    (lit ++ x ++ suf).toList = c :: (t ++ x.toList ++ suf.toList) := by
  rw [show (lit ++ x ++ suf).toList = (lit ++ x).toList ++ suf.toList from
    String.data_append _ _]
  rw [toList_append2 lit x c t hl]
  simp

theorem isDnsLine_false_of_head (s : String) (c : Char) (r : List Char)
    (hs : s.toList = c :: r) (hws : pyIsSpace c = false) (hne : c ≠ 'd') :
    isDnsLine s = false := by
  unfold isDnsLine pyStrip
  rw [hs]
  obtain ⟨t, ht⟩ := pyStripChars_head_nonspace r hws
  rw [ht]
  exact pyStartsWith_head_false _ _ c 'd' t "ns_upstreams".toList rfl (by decide)
    (fun hh => hne hh.symm)

theorem isDnsLine_dnsRendered (dns : List String) :
    isDnsLine (dnsRendered dns) = true := by
  have hfmt : formatList (.val (.arr (dns.map TAtom.s)))
      = "[" ++ String.intercalate ", "
          ((dns.map TAtom.s).map (fun a => "\"" ++ escapeStr a.pyStr ++ "\"")) ++ "]" := rfl
  unfold dnsRendered
  rw [hfmt]
  generalize String.intercalate ", "
    ((dns.map TAtom.s).map (fun a => "\"" ++ escapeStr a.pyStr ++ "\"")) = J
  have hfull : ("dns_upstreams = " ++ ("[" ++ J ++ "]")).toList
      = ('d' :: ("ns_upstreams = [".toList ++ J.toList)) ++ [']'] := by
    rw [show ("dns_upstreams = " ++ ("[" ++ J ++ "]")).toList
        = "dns_upstreams = ".toList ++ ("[" ++ J ++ "]").toList from String.data_append _ _]
    rw [show ("[" ++ J ++ "]").toList = ("[" ++ J).toList ++ "]".toList from
      String.data_append _ _]
    rw [show ("[" ++ J).toList = "[".toList ++ J.toList from String.data_append _ _]
    rw [show "dns_upstreams = ".toList
        = 'd' :: "ns_upstreams = ".toList from by decide]
    rw [show ("ns_upstreams = [".toList : List Char)
        = "ns_upstreams = ".toList ++ "[".toList from by decide]
    simp
  unfold isDnsLine pyStrip
  rw [hfull, pyStripChars_of_ends _ (by decide) (by decide)]
  unfold pyStartsWith
  rw [show (String.mk (('d' :: ("ns_upstreams = [".toList ++ J.toList)) ++ [']'])).toList
      = ('d' :: ("ns_upstreams = [".toList ++ J.toList)) ++ [']'] from rfl]
  apply (List.isPrefixOf_iff_prefix).mpr
  rw [show "dns_upstreams".toList = 'd' :: "ns_upstreams".toList from by decide]
  rw [show ('d' :: ("ns_upstreams = [".toList ++ J.toList)) ++ [']']
      = 'd' :: ("ns_upstreams".toList ++ (" = [".toList ++ J.toList ++ [']'])) from by
    rw [show ("ns_upstreams = [".toList : List Char)
        = "ns_upstreams".toList ++ " = [".toList from by decide]
    simp]
  exact (List.cons_prefix_cons).mpr ⟨rfl, List.prefix_append _ _⟩

theorem mergeDnsLines_mem (lines : List String) (rendered : String) :
    rendered ∈ mergeDnsLines lines rendered := by
  induction lines with
  | nil => simp [mergeDnsLines]
  | cons l rest ih =>
    unfold mergeDnsLines
    by_cases h : isDnsLine l = true
    · simp [h]
    · simp only [h, if_false, Bool.false_eq_true]
      exact List.mem_cons_of_mem l ih

theorem mergeDnsLines_count (lines : List String) (rendered : String)
    (hr : isDnsLine rendered = true) :
    ((mergeDnsLines lines rendered).filter isDnsLine).length
      = max 1 (lines.filter isDnsLine).length := by
  induction lines with
  | nil => simp [mergeDnsLines, hr]
  | cons l rest ih =>
    unfold mergeDnsLines
    by_cases h : isDnsLine l = true
    · simp [h, List.filter_cons, hr]
    · simp only [h, if_false, Bool.false_eq_true]
      rw [List.filter_cons, List.filter_cons]
      simp only [h, Bool.false_eq_true, if_false]
      exact ih

theorem mem_insertSorted (a s : String) (l : List String) :
    a ∈ insertSorted s l ↔ a = s ∨ a ∈ l := by
  induction l with
  | nil => simp [insertSorted]
  | cons t rest ih =>
    unfold insertSorted
    by_cases h : s ≤ t
    · simp [h]
    · simp only [h, if_false]
      constructor
      · intro hm
        rcases List.mem_cons.mp hm with hm1 | hm1
        · exact Or.inr (hm1 ▸ List.mem_cons_self t rest)
        · rcases ih.mp hm1 with hm2 | hm2
          · exact Or.inl hm2
          · exact Or.inr (List.mem_cons_of_mem t hm2)
      · intro hm
        rcases hm with hm1 | hm1
        · exact List.mem_cons_of_mem t (ih.mpr (Or.inl hm1))
        · rcases List.mem_cons.mp hm1 with hm2 | hm2
          · exact hm2 ▸ List.mem_cons_self t _
          · exact List.mem_cons_of_mem t (ih.mpr (Or.inr hm2))

theorem mem_pySorted (a : String) (l : List String) :
    a ∈ pySorted l ↔ a ∈ l := by
  induction l with
  | nil => simp [pySorted]
  | cons t rest ih =>
    unfold pySorted
    rw [List.foldr_cons]
    rw [mem_insertSorted]
    unfold pySorted at ih
    rw [ih]
    simp

theorem chunk_concat (l : List String) (k : Nat) :
    (List.range k).flatMap (fun i => (l.drop (i * 10)).take 10) = l.take (k * 10) := by
  induction k with
  | zero => simp
  | succ n ih =>
    rw [List.range_succ, List.flatMap_append, ih]
    simp only [List.flatMap_cons, List.flatMap_nil, List.append_nil]
    rw [← List.take_add]
    congr 1
    ring

theorem findSome_getD_of_at_most_one (l : List (Option Bool))
    (h : l.countP Option.isSome ≤ 1) :
    ((l.findSome? id).getD false) = l.any (fun o => o = some true) := by
  induction l with
  | nil => rfl
  | cons o t ih =>
    cases o with
    | none =>
      rw [List.findSome?_cons]
      simp only [id]
      have ht : t.countP Option.isSome ≤ 1 := by
        rw [List.countP_cons] at h
        omega
      rw [List.any_cons]
      simp only [show ((none : Option Bool) = some true) = False from by simp,
        decide_False, Bool.false_or]
      exact ih ht
    | some b =>
      have ht : t.countP Option.isSome = 0 := by
        rw [List.countP_cons] at h
        have hh : (if Option.isSome (some b) = true then 1 else 0) = 1 := by simp
        rw [hh] at h
        omega
      have hall : ∀ x ∈ t, x = none := by
        intro x hx
        by_contra hne
        have : Option.isSome x = true := by
          cases x with
          | none => exact absurd rfl hne
          | some v => rfl
        have := List.countP_pos_iff.mpr ⟨x, hx, this⟩
        omega
      have hany : t.any (fun o => o = some true) = false := by
        rw [List.any_eq_false]
        intro x hx
        rw [hall x hx]
        simp
      rw [List.findSome?_cons, List.any_cons, hany]
      cases b with
      | true => simp
      | false => simp

theorem forall_mem_buildLinesRest (data : TDoc) (P : String → Prop)
    (hB1 : P "[endpoint]")
    (hB2 : ∀ x, P ("hostname = \"" ++ x ++ "\""))
    (hB3 : ∀ x, P ("addresses = " ++ x))
    (h6 : ∀ x, P ("has_ipv6 = " ++ x))
    (hC1 : ∀ x, P ("username = \"" ++ x ++ "\""))
    (hC2 : ∀ x, P ("password = \"" ++ x ++ "\""))
    (hC3 : ∀ x, P ("upstream_protocol = \"" ++ x ++ "\""))
    (hF : ∀ x, P ("upstream_fallback_protocol = \"" ++ x ++ "\""))
    (hAD : ∀ x, P ("anti_dpi = " ++ x))
    (hCT : truthyOpt (getValue data ["certificate"]) = true →
      ∀ x, P ("certificate = " ++ x))
    (hSK : truthyOpt (getValue data ["certificate"]) = false →
      P "skip_verification = true")
    (hR1 : P "[listener]")
    (hR2 : P "[listener.tun]")
    (hR3 : P "bound_if = \"\"")
    (hR4 : P "included_routes = [\"0.0.0.0/0\", \"2000::/3\", \"10.3.2.1/32\"]")
    (hR5 : P "excluded_routes = [\"0.0.0.0/8\", \"169.254.0.0/16\", \"172.16.0.0/12\", \"192.168.0.0/16\", \"224.0.0.0/3\"]")
    (hR6 : P "mtu_size = 1500")
    (hR7 : P "change_system_dns = true") :
    ∀ l ∈ buildLinesRest data, P l := by
  intro l hl
  simp only [buildLinesRest] at hl
  rcases List.mem_append.mp hl with hl | hl
  rotate_left
  · simp only [List.mem_cons, List.not_mem_nil, or_false] at hl
    rcases hl with rfl | rfl | rfl | rfl | rfl | rfl | rfl <;> assumption
  rcases List.mem_append.mp hl with hl | hl
  rotate_left
  · split at hl
    · rename_i hct
      simp only [List.mem_singleton] at hl
      subst hl
      exact hCT hct _
    · rename_i hct
      simp only [List.mem_singleton] at hl
      subst hl
      exact hSK (by simpa using hct)
  rcases List.mem_append.mp hl with hl | hl
  rotate_left
  · rcases had : getValue data ["anti_dpi"] with _ | v
    · rw [had] at hl
      simp at hl
    · rw [had] at hl
      simp only [List.mem_singleton] at hl
      subst hl
      exact hAD _
  rcases List.mem_append.mp hl with hl | hl
  rotate_left
  · split at hl
    · simp only [List.mem_singleton] at hl
      subst hl
      exact hF _
    · simp at hl
  rcases List.mem_append.mp hl with hl | hl
  rotate_left
  · simp only [List.mem_cons, List.not_mem_nil, or_false] at hl
    rcases hl with rfl | rfl | rfl
    · exact hC1 _
    · exact hC2 _
    · exact hC3 _
  rcases List.mem_append.mp hl with hl | hl
  · simp only [List.mem_cons, List.not_mem_nil, or_false] at hl
    rcases hl with rfl | rfl | rfl
    · exact hB1
    · exact hB2 _
    · exact hB3 _
  · rcases h6v : getValue data ["has_ipv6"] with _ | v
    · rw [h6v] at hl
      simp at hl
    · rw [h6v] at hl
      simp only [List.mem_singleton] at hl
      subst hl
      exact h6 _

theorem forall_mem_buildLines (data : TDoc) (dns : Option (List String))
    (P : String → Prop)
    (hA1 : P "vpn_mode = \"general\"")
    (hA2 : P "killswitch_enabled = true")
    (hD : ∀ ds, dns = some ds → ds ≠ [] → P (dnsRendered ds))
    (hRest : ∀ l ∈ buildLinesRest data, P l) :
    ∀ l ∈ buildLines data dns, P l := by
  intro l hl
  simp only [buildLines] at hl
  rcases List.mem_append.mp hl with hl | hl
  · rcases List.mem_append.mp hl with hl | hl
    · simp only [List.mem_cons, List.not_mem_nil, or_false] at hl
      rcases hl with rfl | rfl
      · exact hA1
      · exact hA2
    · rcases dns with _ | ds
      · simp [dnsSegment] at hl
      · have hl2 : ¬ds = [] ∧ l = "dns_upstreams = "
            ++ formatList (.val (.arr (ds.map TAtom.s))) := by
          simpa [dnsSegment] using hl
        rw [hl2.2]
        exact hD ds rfl hl2.1
  · exact hRest l hl

theorem not_cert_of_head (s : String) (c : Char) (r : List Char)
    (hs : s.toList = c :: r) (h : c ≠ 'c') :
    pyStartsWith s "certificate" = false :=
  pyStartsWith_head_false s _ c 'c' r "ertificate".toList hs (by decide)
    (fun hh => h hh.symm)

theorem not_cert_append3 (lit x suf : String) (c : Char)
    (hh : lit.toList.head? = some c) (hc : c ≠ 'c') :
    pyStartsWith (lit ++ x ++ suf) "certificate" = false := by
  cases hl : lit.toList with
  | nil => rw [hl] at hh; exact absurd hh (by simp)
  | cons c2 t =>
    rw [hl] at hh
    have hcc : c2 = c := by simpa using hh
    subst hcc
    exact not_cert_of_head _ c2 _ (toList_append3 lit x suf c2 t hl) hc

theorem not_cert_append2 (lit x : String) (c : Char)
    (hh : lit.toList.head? = some c) (hc : c ≠ 'c') :
    pyStartsWith (lit ++ x) "certificate" = false := by
  cases hl : lit.toList with
  | nil => rw [hl] at hh; exact absurd hh (by simp)
  | cons c2 t =>
    rw [hl] at hh
    have hcc : c2 = c := by simpa using hh
    subst hcc
    exact not_cert_of_head _ c2 _ (toList_append2 lit x c2 t hl) hc

theorem not_dns_append3 (lit x suf : String) (c : Char)
    (hh : lit.toList.head? = some c) (hws : pyIsSpace c = false) (hc : c ≠ 'd') :
    isDnsLine (lit ++ x ++ suf) = false := by
  cases hl : lit.toList with
  | nil => rw [hl] at hh; exact absurd hh (by simp)
  | cons c2 t =>
    rw [hl] at hh
    have hcc : c2 = c := by simpa using hh
    subst hcc
    exact isDnsLine_false_of_head _ c2 _ (toList_append3 lit x suf c2 t hl) hws hc

theorem not_dns_append2 (lit x : String) (c : Char)
    (hh : lit.toList.head? = some c) (hws : pyIsSpace c = false) (hc : c ≠ 'd') :
    isDnsLine (lit ++ x) = false := by
  cases hl : lit.toList with
  | nil => rw [hl] at hh; exact absurd hh (by simp)
  | cons c2 t =>
    rw [hl] at hh
    have hcc : c2 = c := by simpa using hh
    subst hcc
    exact isDnsLine_false_of_head _ c2 _ (toList_append2 lit x c2 t hl) hws hc

theorem cert_line_starts (x : String) :
    pyStartsWith ("certificate = " ++ x) "certificate" = true := by
  unfold pyStartsWith
  rw [show ("certificate = " ++ x).toList = "certificate = ".toList ++ x.toList from
    String.data_append _ _]
  apply (List.isPrefixOf_iff_prefix).mpr
  rw [show ("certificate = ".toList : List Char)
      = "certificate".toList ++ " = ".toList from by decide]
  rw [List.append_assoc]
  exact List.prefix_append _ _

theorem buildLinesRest_no_dns (data : TDoc) :
    ∀ l ∈ buildLinesRest data, isDnsLine l = false := by
  apply forall_mem_buildLinesRest data (fun l => isDnsLine l = false)
  · decide
  · intro x; exact not_dns_append3 _ _ _ 'h' (by decide) (by decide) (by decide)
  · intro x; exact not_dns_append2 _ _ 'a' (by decide) (by decide) (by decide)
  · intro x; exact not_dns_append2 _ _ 'h' (by decide) (by decide) (by decide)
  · intro x; exact not_dns_append3 _ _ _ 'u' (by decide) (by decide) (by decide)
  · intro x; exact not_dns_append3 _ _ _ 'p' (by decide) (by decide) (by decide)
  · intro x; exact not_dns_append3 _ _ _ 'u' (by decide) (by decide) (by decide)
  · intro x; exact not_dns_append3 _ _ _ 'u' (by decide) (by decide) (by decide)
  · intro x; exact not_dns_append2 _ _ 'a' (by decide) (by decide) (by decide)
  · intro _ x; exact not_dns_append2 _ _ 'c' (by decide) (by decide) (by decide)
  · intro _; decide
  · decide
  · decide
  · decide
  · decide
  · decide
  · decide
  · decide

theorem buildLines_no_cert (data : TDoc) (dns : Option (List String))
    (hcert : truthyOpt (getValue data ["certificate"]) = false) :
    ∀ l ∈ buildLines data dns, pyStartsWith l "certificate" = false := by
  apply forall_mem_buildLines data dns (fun l => pyStartsWith l "certificate" = false)
  · decide
  · decide
  · intro ds _ _
    unfold dnsRendered
    exact not_cert_append2 _ _ 'd' (by decide) (by decide)
  · apply forall_mem_buildLinesRest data (fun l => pyStartsWith l "certificate" = false)
    · decide
    · intro x; exact not_cert_append3 _ _ _ 'h' (by decide) (by decide)
    · intro x; exact not_cert_append2 _ _ 'a' (by decide) (by decide)
    · intro x; exact not_cert_append2 _ _ 'h' (by decide) (by decide)
    · intro x; exact not_cert_append3 _ _ _ 'u' (by decide) (by decide)
    · intro x; exact not_cert_append3 _ _ _ 'p' (by decide) (by decide)
    · intro x; exact not_cert_append3 _ _ _ 'u' (by decide) (by decide)
    · intro x; exact not_cert_append3 _ _ _ 'u' (by decide) (by decide)
    · intro x; exact not_cert_append2 _ _ 'a' (by decide) (by decide)
    · intro hct
      rw [hct] at hcert
      exact absurd hcert (by decide)
    · intro _; decide
    · decide
    · decide
    · decide
    · decide
    · decide
    · decide
    · decide

theorem buildLines_filter_dns (data : TDoc) (ds : List String) (hds : ds ≠ []) :
    (buildLines data (some ds)).filter isDnsLine = [dnsRendered ds] := by
  unfold buildLines
  rw [List.filter_append, List.filter_append]
  have h1 : List.filter isDnsLine
      ["vpn_mode = \"general\"", "killswitch_enabled = true"] = [] := by decide
  have h2 : (dnsSegment (some ds)).filter isDnsLine = [dnsRendered ds] := by
    show ((if ds ≠ [] then
        ["dns_upstreams = " ++ formatList (.val (.arr (ds.map TAtom.s)))]
      else []) : List String).filter isDnsLine = [dnsRendered ds]
    rw [if_pos hds]
    rw [List.filter_cons]
    rw [show isDnsLine ("dns_upstreams = " ++ formatList (.val (.arr (ds.map TAtom.s))))
        = true from isDnsLine_dnsRendered ds]
    rfl
  have h3 : (buildLinesRest data).filter isDnsLine = [] := by
    rw [List.filter_eq_nil_iff]
    intro a ha
    rw [buildLinesRest_no_dns data a ha]
    simp
  rw [h1, h2, h3]
  simp

theorem skip_mem_buildLines (data : TDoc) (dns : Option (List String))
    (hcert : truthyOpt (getValue data ["certificate"]) = false) :
    "skip_verification = true" ∈ buildLines data dns := by
  unfold buildLines
  apply List.mem_append_right
  unfold buildLinesRest
  apply List.mem_append_left
  apply List.mem_append_right
  rw [hcert]
  simp

theorem cert_mem_buildLines (data : TDoc) (dns : Option (List String))
    (hcert : truthyOpt (getValue data ["certificate"]) = true) :
    ("certificate = " ++ formatMultilineString
        (((getValue data ["certificate"]).map TEntry.pyStr).getD "None"))
      ∈ buildLines data dns := by
  unfold buildLines
  apply List.mem_append_right
  unfold buildLinesRest
  apply List.mem_append_left
  apply List.mem_append_right
  rw [hcert]
  simp

/-! ## Claim theorems -/

/-- C1: on a store whose credential file loads to `credentials`, `add_user`
with a username already present fails with the duplicate-user error before
any write (the error branch carries no new file content, so the credential
file is untouched); with a username not present it appends the new record,
persists the canonical serialization, triggers the reload hook and returns
which reload path was used. -/
theorem addUser_spec (content : String) (endpoint : Option String)
    (postOk : String → Bool) (restartOk : Bool) (u p : String)
    (credentials : List ClientCredential)
    (h : loadCredentials content = .ok credentials) :
    (credentials.any (fun client => client.username = u) = true →
      addUser content endpoint postOk restartOk u p
        = .error ("User " ++ u ++ " already exists"))
  ∧ (credentials.any (fun client => client.username = u) = false →
      addUser content endpoint postOk restartOk u p
        = .ok (saveContent (credentials ++ [{ username := u, password := p }]),
               (reloadCredentials endpoint postOk restartOk).1.used_hot_reload)) := by
  constructor
  · intro hany
    unfold addUser
    rw [h]
    show (if credentials.any (fun client => client.username = u) = true then
        Except.error ("User " ++ u ++ " already exists")
      else _) = _
    rw [if_pos hany]
  · intro hany
    unfold addUser
    rw [h]
    show (if credentials.any (fun client => client.username = u) = true then _
      else Except.ok
        (saveContent (credentials ++ [{ username := u, password := p }]),
         (reloadCredentials endpoint postOk restartOk).1.used_hot_reload)) = _
    rw [if_neg (by simp [hany])]

/-- Witness for C1 at a concrete store: adding the already-present
username `a` fails with the duplicate-user error. -/
theorem addUser_spec_witness :
    addUser "[[client]]\nusername = \"a\"\npassword = \"b\"\n"
        none (fun _ => false) true "a" "x"
      = .error ("User " ++ "a" ++ " already exists") :=
  (addUser_spec "[[client]]\nusername = \"a\"\npassword = \"b\"\n"
    none (fun _ => false) true "a" "x"
    [{ username := "a", password := "b" }] (by rfl)).1 (by decide)

/-- C2: on a store whose credential file loads to `credentials`,
`delete_user` with an absent username fails with the user-not-found error
before any write, leaving the store unchanged; with a present username
(under the store's username-uniqueness invariant) it removes exactly that
one record, preserves the relative order of the remaining records, persists
them and triggers the reload hook. -/
theorem deleteUser_spec (content : String) (endpoint : Option String)
    (postOk : String → Bool) (restartOk : Bool) (u : String)
    (credentials : List ClientCredential)
    (h : loadCredentials content = .ok credentials) :
    (u ∉ credentials.map (fun client => client.username) →
      deleteUser content endpoint postOk restartOk u
        = .error ("User " ++ u ++ " not found"))
  ∧ (∀ l₁ c l₂, credentials = l₁ ++ c :: l₂ → c.username = u →
      (credentials.map (fun client => client.username)).Nodup →
      deleteUser content endpoint postOk restartOk u
        = .ok (saveContent (l₁ ++ l₂),
               (reloadCredentials endpoint postOk restartOk).1.used_hot_reload)) := by
  constructor
  · intro hu
    unfold deleteUser
    rw [h]
    have hfil : credentials.filter (fun client => client.username ≠ u)
        = credentials := by
      apply List.filter_eq_self.mpr
      intro a ha
      have hne : a.username ≠ u := fun heq => hu (List.mem_map.mpr ⟨a, ha, heq⟩)
      simpa using hne
    show (if (credentials.filter (fun client => client.username ≠ u)).length
          = credentials.length then
        Except.error ("User " ++ u ++ " not found")
      else _) = _
    rw [hfil, if_pos rfl]
  · intro l₁ c l₂ hdec hcu hnd
    subst hdec
    rw [List.map_append, List.map_cons] at hnd
    obtain ⟨hn1, hn2, hdisj⟩ := List.nodup_append.mp hnd
    have hcnot : c.username ∉ l₂.map (fun client => client.username) :=
      (List.nodup_cons.mp hn2).1
    have hl1 : ∀ x ∈ l₁, x.username ≠ u := by
      intro x hx heq
      exact hdisj (List.mem_map.mpr ⟨x, hx, heq.trans hcu.symm⟩)
        (List.mem_cons_self _ _)
    have hl2 : ∀ x ∈ l₂, x.username ≠ u := by
      intro x hx heq
      exact hcnot (List.mem_map.mpr ⟨x, hx, heq.trans hcu.symm⟩)
    have hfil : (l₁ ++ c :: l₂).filter (fun client => client.username ≠ u)
        = l₁ ++ l₂ := by
      rw [List.filter_append, List.filter_cons]
      rw [show (decide (c.username ≠ u)) = false from by simp [hcu]]
      simp only [Bool.false_eq_true, if_false]
      rw [List.filter_eq_self.mpr (fun a ha => by
          simpa using hl1 a ha),
        List.filter_eq_self.mpr (fun a ha => by
          simpa using hl2 a ha)]
    unfold deleteUser
    rw [h]
    show (if ((l₁ ++ c :: l₂).filter (fun client => client.username ≠ u)).length
          = (l₁ ++ c :: l₂).length then _
      else Except.ok
        (saveContent ((l₁ ++ c :: l₂).filter (fun client => client.username ≠ u)),
         (reloadCredentials endpoint postOk restartOk).1.used_hot_reload)) = _
    rw [hfil]
    rw [if_neg (by simp)]

/-- Witness for C2 at a concrete store: deleting the single user `a`
leaves the empty store. -/
theorem deleteUser_spec_witness :
    deleteUser "[[client]]\nusername = \"a\"\npassword = \"b\"\n"
        none (fun _ => false) true "a"
      = .ok (saveContent ([] ++ []),
             (reloadCredentials none (fun _ => false) true).1.used_hot_reload) :=
  (deleteUser_spec "[[client]]\nusername = \"a\"\npassword = \"b\"\n"
    none (fun _ => false) true "a"
    [{ username := "a", password := "b" }] (by rfl)).2
    [] { username := "a", password := "b" } [] rfl rfl (by decide)

/-- C6 counterexample: a credential file that `load_credentials` accepts
(`username="a"` with no spaces around the equals sign is valid TOML) but
whose re-serialization differs from the original content, so
`save(load(path))` is not a no-op on every accepted file. -/
theorem saveContent_load_counterexample :
    loadCredentials "[[client]]\nusername=\"a\"\npassword=\"b\"\n"
      = .ok [{ username := "a", password := "b" }]
    ∧ saveContent [{ username := "a", password := "b" }]
      ≠ "[[client]]\nusername=\"a\"\npassword=\"b\"\n" := by
  constructor
  · rfl
  · intro hc
    have : ("[[client]]\nusername = \"a\"\npassword = \"b\"\n" : String)
        = "[[client]]\nusername=\"a\"\npassword=\"b\"\n" := by
      rw [← hc]
      rfl
    simp at this

/-- C6 (amended): on every credential file in the canonical form `save`
writes (fields non-empty and control-character free), loading and saving
back reproduces the file content byte for byte; a general accepted file is
only normalized to this form by the first load/save pass. -/
theorem saveContent_load_fixpoint (cs : List ClientCredential)
    (hg : ∀ c ∈ cs, goodClient c = true) :
    (loadCredentials (saveContent cs)).map saveContent
      = .ok (saveContent cs) := by
  rw [load_save_roundtrip cs hg]
  rfl

/-- Witness for C6 at a concrete store. -/
theorem saveContent_load_fixpoint_witness :
    (loadCredentials (saveContent [{ username := "a", password := "b" }])).map
        saveContent
      = .ok (saveContent [{ username := "a", password := "b" }]) :=
  saveContent_load_fixpoint [{ username := "a", password := "b" }] (by decide)

/-- C10: loading the file written by `save_credentials` returns exactly
the saved list, for every list whose usernames and passwords are non-empty
and free of control characters. -/
theorem loadCredentials_saveContent_id (cs : List ClientCredential)
    (hg : ∀ c ∈ cs, goodClient c = true) :
    loadCredentials (saveContent cs) = .ok cs :=
  load_save_roundtrip cs hg

/-- Witness for C10 at a concrete list with characters that need
escaping. -/
theorem loadCredentials_saveContent_id_witness :
    loadCredentials (saveContent [{ username := "a\\b", password := "c\"d" }])
      = .ok [{ username := "a\\b", password := "c\"d" }] :=
  loadCredentials_saveContent_id [{ username := "a\\b", password := "c\"d" }]
    (by decide)

/-- C9: the reload notifier reports a hot reload exactly when a non-empty
endpoint URL is configured and the POST to it succeeds; every other
outcome (no endpoint, empty endpoint, failed POST — the caught
`URLError`/`HTTPError`) falls back to invoking the `systemctl restart`
command and reports `used_hot_reload = false`; the restart's own exit
status never influences the result (fire-and-forget), and the function
is total — no error escapes to the caller. -/
theorem reloadCredentials_spec (endpoint : Option String)
    (postOk : String → Bool) (restartOk restartOk2 : Bool) :
    ((reloadCredentials endpoint postOk restartOk).1.used_hot_reload = true
      ↔ ∃ url, endpoint = some url ∧ url ≠ "" ∧ postOk url = true)
  ∧ ((reloadCredentials endpoint postOk restartOk).2
      = !(reloadCredentials endpoint postOk restartOk).1.used_hot_reload)
  ∧ reloadCredentials endpoint postOk restartOk
      = reloadCredentials endpoint postOk restartOk2 := by
  rcases endpoint with _ | url
  · refine ⟨?_, rfl, rfl⟩
    simp [reloadCredentials]
  · by_cases hurl : url = ""
    · subst hurl
      refine ⟨?_, rfl, rfl⟩
      simp [reloadCredentials]
    · by_cases hpost : postOk url = true
      · refine ⟨?_, ?_, ?_⟩
        · simp [reloadCredentials, hurl, hpost]
        · simp [reloadCredentials, hurl, hpost]
        · simp [reloadCredentials, hurl, hpost]
      · refine ⟨?_, ?_, ?_⟩
        · simp only [reloadCredentials, if_neg (by simpa using hurl)]
          constructor
          · intro hh
            rw [if_pos (by simpa using hurl)] at hh
            rw [if_neg (by simp [hpost])] at hh
            simp at hh
          · rintro ⟨url2, hu2, _, hp2⟩
            cases hu2
            exact absurd hp2 hpost
        · simp [reloadCredentials, hurl, hpost]
        · simp [reloadCredentials, hurl, hpost]

/-- C3 (code bug exhibit): the admin gate of `handle_callback` checks only
the four plain actions and the `delete_user:` prefix, so the admin-only
callbacks `admin_config_select:<name>` and the page-navigation callbacks
reach their handlers for a non-admin identity: pressing
`admin_config_select:alice` as a non-admin generates and sends the config
for `alice` instead of answering "insufficient rights". -/
theorem handleCallback_admin_gate_bypass :
    handleCallback "admin_config_select:alice" false
      = .sendConfigs "alice"
    ∧ claimAdminOnly "admin_config_select:alice" = true
    ∧ handleCallback "delete_user_page:2" false = .showDeleteMenu 2
    ∧ claimAdminOnly "delete_user_page:2" = true
    ∧ handleCallback "delete_user:alice" false = .insufficientRights
    ∧ handleCallback "add_user" false = .insufficientRights := by
  refine ⟨by decide, by decide, by decide, by decide, by decide, by decide⟩

theorem flatMap_congr_mem (l : List Nat) (f g : Nat → List String)
    (h : ∀ a ∈ l, f a = g a) : l.flatMap f = l.flatMap g := by
  induction l with
  | nil => rfl
  | cons a t ih =>
    rw [List.flatMap_cons, List.flatMap_cons, h a (List.mem_cons_self a t),
      ih (fun x hx => h x (List.mem_cons_of_mem a hx))]

/-- C4: for a non-empty username list, `_paginate_usernames` computes
`total_pages = ceil(N / 10)` (characterized by the two bounds below),
clamps every requested page — 0, negative, or beyond the last page —
into `[1, total_pages]`, and the page slices for pages `1..total_pages`
concatenate back to the full ordered list with no duplicates or
omissions. -/
theorem paginateUsernames_spec (usernames : List String) (page : Int)
    (h : 0 < usernames.length) :
    (paginateUsernames usernames page).2.2
        = (usernames.length + USER_LIST_PAGE_SIZE - 1) / USER_LIST_PAGE_SIZE
    ∧ usernames.length ≤ (paginateUsernames usernames page).2.2 * USER_LIST_PAGE_SIZE
    ∧ (paginateUsernames usernames page).2.2 * USER_LIST_PAGE_SIZE
        < usernames.length + USER_LIST_PAGE_SIZE
    ∧ 1 ≤ (paginateUsernames usernames page).2.1
    ∧ (paginateUsernames usernames page).2.1
        ≤ ((paginateUsernames usernames page).2.2 : Int)
    ∧ (List.range (paginateUsernames usernames page).2.2).flatMap
        (fun i => (paginateUsernames usernames ((i : Int) + 1)).1) = usernames := by
  have hne : ¬(usernames.length = 0) := by omega
  have heq : ∀ (pg : Int), paginateUsernames usernames pg
      = ((usernames.drop ((max 1 (min pg
            (((usernames.length + USER_LIST_PAGE_SIZE - 1) / USER_LIST_PAGE_SIZE : Nat) : Int))
            - 1) * (USER_LIST_PAGE_SIZE : Int)).toNat).take USER_LIST_PAGE_SIZE,
         max 1 (min pg
            (((usernames.length + USER_LIST_PAGE_SIZE - 1) / USER_LIST_PAGE_SIZE : Nat) : Int)),
         (usernames.length + USER_LIST_PAGE_SIZE - 1) / USER_LIST_PAGE_SIZE) := by
    intro pg
    simp only [paginateUsernames]
    rw [if_neg hne]
  have hT1 : 1 ≤ (usernames.length + USER_LIST_PAGE_SIZE - 1) / USER_LIST_PAGE_SIZE := by
    show 1 ≤ (usernames.length + 10 - 1) / 10
    omega
  refine ⟨?_, ?_, ?_, ?_, ?_, ?_⟩
  · rw [heq page]
  · rw [heq page]
    show usernames.length ≤ (usernames.length + 10 - 1) / 10 * 10
    omega
  · rw [heq page]
    show (usernames.length + 10 - 1) / 10 * 10 < usernames.length + 10
    omega
  · rw [heq page]
    exact le_max_left 1 _
  · rw [heq page]
    refine max_le ?_ (min_le_right _ _)
    exact_mod_cast hT1
  · rw [heq page]
    have hslice : ∀ i : Nat,
        i < (usernames.length + USER_LIST_PAGE_SIZE - 1) / USER_LIST_PAGE_SIZE →
        (paginateUsernames usernames ((i : Int) + 1)).1
          = (usernames.drop (i * 10)).take 10 := by
      intro i hi
      rw [heq ((i : Int) + 1)]
      have hmin : min ((i : Int) + 1)
          (((usernames.length + USER_LIST_PAGE_SIZE - 1) / USER_LIST_PAGE_SIZE : Nat) : Int)
          = (i : Int) + 1 := by
        have : (i : Int) + 1
            ≤ (((usernames.length + USER_LIST_PAGE_SIZE - 1) / USER_LIST_PAGE_SIZE : Nat) : Int) := by
          exact_mod_cast hi
        omega
      have hmax : max 1 ((i : Int) + 1) = (i : Int) + 1 := by omega
      rw [hmin, hmax]
      have hstart : (((i : Int) + 1 - 1) * ((USER_LIST_PAGE_SIZE : Nat) : Int)).toNat
          = i * 10 := by
        show (((i : Int) + 1 - 1) * (10 : Int)).toNat = i * 10
        omega
      rw [hstart]
      rfl
    rw [flatMap_congr_mem _ _ _
      (fun i hi => hslice i (List.mem_range.mp hi))]
    rw [chunk_concat]
    apply List.take_of_length_le
    show usernames.length ≤ (usernames.length + 10 - 1) / 10 * 10
    omega

/-- Witness for C4 at a concrete list: with three usernames the requested
page 0 is clamped to page 1. -/
theorem paginateUsernames_spec_witness :
    1 ≤ (paginateUsernames ["a", "b", "c"] 0).2.1 :=
  (paginateUsernames_spec ["a", "b", "c"] 0 (by decide)).2.2.2.1

/-- C5: the manual client-config builder fails exactly when a required
field is missing, and the error message lists every missing field
(membership in the sorted missing list is equivalent to that field's
emptiness, for each of the five required fields); on success the
skip-verification flag is the negation of certificate truthiness, a
missing certificate yields a `skip_verification = true` line and no
certificate line, and a present certificate yields a certificate line. -/
theorem buildClientConfig_spec (data : TDoc) (dns : Option (List String)) :
    (missingFields data ≠ [] →
      buildClientConfigFromEndpoint data dns = .error (missingMessage data))
  ∧ (missingFields data = [] →
      buildClientConfigFromEndpoint data dns
        = .ok (buildLines data dns, !truthyOpt (getValue data ["certificate"])))
  ∧ (truthyOpt (getValue data ["certificate"]) = false →
      "skip_verification = true" ∈ buildLines data dns
      ∧ ∀ l ∈ buildLines data dns, pyStartsWith l "certificate" = false)
  ∧ (truthyOpt (getValue data ["certificate"]) = true →
      ∃ l ∈ buildLines data dns, pyStartsWith l "certificate" = true)
  ∧ ("hostname" ∈ pySorted (missingFields data)
      ↔ isEmptyVal (getValue data ["hostname"]) = true)
  ∧ ("addresses" ∈ pySorted (missingFields data)
      ↔ isEmptyVal (getValue data ["addresses"]) = true)
  ∧ ("username" ∈ pySorted (missingFields data)
      ↔ isEmptyVal (getValue data ["username"]) = true)
  ∧ ("password" ∈ pySorted (missingFields data)
      ↔ isEmptyVal (getValue data ["password"]) = true)
  ∧ ("protocol" ∈ pySorted (missingFields data)
      ↔ isEmptyVal (getValue data ["upstream_protocol", "protocol"]) = true) := by
  refine ⟨?_, ?_, ?_, ?_, ?_, ?_, ?_, ?_, ?_⟩
  · intro hm
    unfold buildClientConfigFromEndpoint
    rw [if_pos hm]
  · intro hm
    unfold buildClientConfigFromEndpoint
    rw [if_neg (by simp [hm])]
  · intro hc
    exact ⟨skip_mem_buildLines data dns hc, buildLines_no_cert data dns hc⟩
  · intro hc
    exact ⟨_, cert_mem_buildLines data dns hc, cert_line_starts _⟩
  · rw [mem_pySorted]
    simp [missingFields, requiredPairs, List.mem_filter]
  · rw [mem_pySorted]
    simp [missingFields, requiredPairs, List.mem_filter]
  · rw [mem_pySorted]
    simp [missingFields, requiredPairs, List.mem_filter]
  · rw [mem_pySorted]
    simp [missingFields, requiredPairs, List.mem_filter]
  · rw [mem_pySorted]
    simp [missingFields, requiredPairs, List.mem_filter]

/-- C7 counterexample: wizard-produced content may already hold two
`dns_upstreams` lines; the merge replaces only the first, so the final
output does not contain exactly one such line. -/
theorem mergeDnsUpstreams_counterexample :
    dnsLineCount (mergeDnsUpstreams
        "dns_upstreams = [\"x\"]\ndns_upstreams = [\"y\"]" ["9.9.9.9"]) ≠ 1 := by
  decide

/-- C7 (amended): the merge inserts the rendered override line, replacing
the first existing `dns_upstreams` line or appending one when none exists,
so the merged line list holds `max 1 k` dns lines when the input held `k` —
exactly one whenever the input held at most one; and the manual renderer
emits exactly one `dns_upstreams` line for every non-empty override list. -/
theorem mergeDnsUpstreams_spec (lines : List String) (dns : List String)
    (data : TDoc) :
    dnsRendered dns ∈ mergeDnsLines lines (dnsRendered dns)
  ∧ ((mergeDnsLines lines (dnsRendered dns)).filter isDnsLine).length
      = max 1 ((lines.filter isDnsLine).length)
  ∧ (∀ ds okLines skip, ds ≠ [] →
      buildClientConfigFromEndpoint data (some ds) = .ok (okLines, skip) →
      (okLines.filter isDnsLine).length = 1) := by
  refine ⟨mergeDnsLines_mem lines (dnsRendered dns),
    mergeDnsLines_count lines (dnsRendered dns) (isDnsLine_dnsRendered dns), ?_⟩
  intro ds okLines skip hds heq
  unfold buildClientConfigFromEndpoint at heq
  by_cases hm : missingFields data ≠ []
  · rw [if_pos hm] at heq
    exact absurd heq (by simp)
  · rw [if_neg hm] at heq
    have hok : okLines = buildLines data (some ds) := by
      have := Except.ok.inj heq
      exact (Prod.mk.injEq _ _ _ _ ▸ this).1.symm
    rw [hok, buildLines_filter_dns data ds hds]
    rfl

/-- C8 counterexample: a descriptor with all required fields carrying
`self_signed = false` at top level and `selfSigned = true` beside it; some
accepted spelling is present with a truthy value, yet the profile's
self-signed flag is false, because the source returns the truthiness of
the first spelling found. -/
theorem selfSigned_counterexample :
    (buildConnectionProfile endpointDocB none).toOption.map
        (fun profile => profile.self_signed) = some false
    ∧ anyTruthySpelling endpointDocB = true := by
  constructor
  · rfl
  · rfl

/-- C8 (amended): for every descriptor the profile builder accepts, the
profile picks the first address when the addresses field is a non-empty
array, renders the DNS field as the comma-joined list when a non-empty
list is present and as the fixed sentinel when the field is absent or
empty, and sets self_signed to the truthiness of the first accepted
spelling in search order — which coincides with "some accepted spelling is
present and truthy" whenever at most one accepted spelling is present. -/
theorem buildConnectionProfile_spec (data : TDoc) (serverName : Option String)
    (profile : ConnectionProfile)
    (h : buildConnectionProfile data serverName = .ok profile) :
    (∀ x xs, getValue data ["addresses"] = some (.val (.arr (x :: xs))) →
      profile.address = x.pyStr)
  ∧ (isEmptyVal (getValue data ["dns_upstreams", "dns"]) = true →
      profile.dns = "default (system)")
  ∧ (∀ xs, getValue data ["dns_upstreams", "dns"] = some (.val (.arr xs)) →
      xs ≠ [] →
      profile.dns = String.intercalate ", " (xs.map TAtom.pyStr))
  ∧ profile.self_signed = isSelfSigned data
  ∧ ((selfSignedCandidates data).countP Option.isSome ≤ 1 →
      profile.self_signed = anyTruthySpelling data) := by
  unfold buildConnectionProfile at h
  by_cases hm : missingFields data ≠ []
  · rw [if_pos hm] at h
    exact absurd h (by simp)
  · rw [if_neg hm] at h
    have hp := (Except.ok.inj h).symm
    subst hp
    refine ⟨?_, ?_, ?_, rfl, ?_⟩
    · intro x xs haddr
      show pickAddress ((getValue data ["addresses"]).getD
        (.val (.atom (.s "None")))) = x.pyStr
      rw [haddr]
      rfl
    · intro hempty
      show formatDns (getValue data ["dns_upstreams", "dns"]) = "default (system)"
      unfold formatDns
      rw [if_pos hempty]
    · intro xs hdns hne
      show formatDns (getValue data ["dns_upstreams", "dns"])
        = String.intercalate ", " (xs.map TAtom.pyStr)
      unfold formatDns
      rw [hdns]
      rw [if_neg (by simp [isEmptyVal, hne])]
    · intro hcount
      show isSelfSigned data = anyTruthySpelling data
      unfold isSelfSigned anyTruthySpelling
      rw [findSome_getD_of_at_most_one _ hcount]

/-- Witness for C8 at a concrete descriptor with exactly one accepted
self-signed spelling. -/
theorem buildConnectionProfile_spec_witness :
    profileA.self_signed = anyTruthySpelling endpointDocA :=
  (buildConnectionProfile_spec endpointDocA none profileA (by rfl)).2.2.2.2
    (by decide)
